import Mathlib

/-!
# Plugin manager of `backend/plugins` (manager.go, types.go)

A shallow embedding of the host-side plugin manager.

Modelling conventions
* The environment (directory listing, `plugin.Open`, the symbols a module
  exports, `json.Marshal`) is input data: each directory entry carries the
  result `plugin.Open` yields for it, each module carries its symbol table.
* An exported function of a module is a black box, represented by the value it
  returns for an argument; every invocation made by the manager is recorded in
  an event trace, as is every `plugin.Open` attempt.
* A Go `func` field that may be `nil` is an `Option`; calling `nil` panics.
* A failed single-value type assertion `x.(T)` panics.
* `map[string]*ConnectorPlugin` is an association list with unique keys;
  iteration order of a Go map is unspecified, so `GetAllPlugins` takes the
  iteration order as a parameter.
* `log.Printf` calls and the `sync.RWMutex` are not modelled (sequential
  semantics, logging has no effect on control flow or on the registry).
-/

namespace Plugins

/-! ## types.go -/

/-- The constant `ConnectorApiVersion` of manager.go. -/
def ConnectorApiVersion : Nat := 1

/-- The type `SessionHandle` (a `uintptr`). -/
abbrev SessionHandle := Nat

/-- The struct `ConnectorInfo`; `ApiVersion` is a `uint32`. -/
structure ConnectorInfo where
  ID : String
  Name : String
  Description : String
  ApiVersion : Nat
deriving DecidableEq

/-- The struct `ConfigField` (field `Type` is spelled `Typ`). -/
structure ConfigField where
  Key : String
  Label : String
  Typ : String
  DefaultValue : String
  Options : String
deriving DecidableEq

/-- The struct `Session`. -/
structure Session where
  PluginID : String
  Handle : SessionHandle
deriving DecidableEq

/-! ## The Go `plugin` package, as far as the manager uses it -/

/-- A `plugin.Symbol`: a value together with its dynamic type. The six function
types the manager asserts are distinguished; any other dynamic type is `other`,
carrying the type's name. -/
inductive Symbol where
  | funcInfo (f : Unit → ConnectorInfo)
  | funcConfigFields (f : Unit → List ConfigField)
  | funcCreate (f : String → SessionHandle)
  | funcDestroy (f : SessionHandle → Unit)
  | funcTest (f : SessionHandle → Bool)
  | funcFetch (f : SessionHandle → String)
  | other (goType : String)

/-- Name of the dynamic type of a symbol, as a panic message prints it. -/
def Symbol.goType : Symbol → String
  | .funcInfo _ => "func() plugins.ConnectorInfo"
  | .funcConfigFields _ => "func() []plugins.ConfigField"
  | .funcCreate _ => "func(string) plugins.SessionHandle"
  | .funcDestroy _ => "func(plugins.SessionHandle)"
  | .funcTest _ => "func(plugins.SessionHandle) bool"
  | .funcFetch _ => "func(plugins.SessionHandle) string"
  | .other t => t

/-- An opened module (`*plugin.Plugin`): its path and its exported symbols. -/
structure Plugin where
  pluginpath : String
  syms : List (String × Symbol)

/-- The method `(*plugin.Plugin).Lookup`: `none` stands for the error return. -/
def Plugin.Lookup (p : Plugin) (symName : String) : Option Symbol :=
  match p.syms.find? (fun kv => kv.1 = symName) with
  | some kv => some kv.2
  | none => none

/-- Kind of a directory entry. `LoadPlugins` never inspects it. -/
inductive FileKind where
  | regular
  | directory
deriving DecidableEq

/-- One path returned by `filepath.Glob`, with what the file system holds
there: its kind and the result `plugin.Open` gives for the path. -/
structure DirEntry where
  path : String
  kind : FileKind
  opened : Except String Plugin

/-- Backwards scan of `filepath.Ext`: the first argument is the part of the path
not yet visited, last character first; the second the suffix already passed. -/
def extScan : List Char → List Char → List Char
  | [], _ => []
  | c :: rest, acc =>
    if c = '/' then []
    else if c = '.' then c :: acc
    else extScan rest (c :: acc)

/-- The function `filepath.Ext` (path separator `/`): the suffix beginning at
the final dot of the final path element, empty if there is none. -/
def Ext (path : String) : String :=
  String.mk (extScan path.data.reverse [])

/-! ## Events -/

/-- The entry points a module exports. -/
inductive EntryPoint where
  | GetConnectorInfo
  | GetConfigFields
  | CreateSession
  | DestroySession
  | TestConnection
  | FetchData
deriving DecidableEq

/-- Argument of a recorded plugin call. -/
inductive CallArg where
  | none
  | str (s : String)
  | handle (h : SessionHandle)
deriving DecidableEq

/-- What the manager does to the outside: a `plugin.Open` attempt, or a call of
a function of the module at `pluginpath`. -/
inductive Event where
  | open (path : String)
  | call (pluginpath : String) (entry : EntryPoint) (arg : CallArg)
deriving DecidableEq

/-! ## The registry -/

/-- The struct `ConnectorPlugin`; a function field is `none` while it is `nil`. -/
structure ConnectorPlugin where
  plugin : Plugin
  info : ConnectorInfo
  getInfo : Option (Unit → ConnectorInfo)
  getConfigFields : Option (Unit → List ConfigField)
  createSession : Option (String → SessionHandle)
  destroySession : Option (SessionHandle → Unit)
  testConnection : Option (SessionHandle → Bool)
  fetchData : Option (SessionHandle → String)

/-- Map read `m[k]`: the value and `exists`. -/
def mapGet {β : Type} (k : String) : List (String × β) → Option β
  | [] => none
  | (k', v) :: rest => if k' = k then some v else mapGet k rest

/-- Map write `m[k] = v`: replaces the value of an existing key, adds the key
otherwise. -/
def mapSet {β : Type} (k : String) (v : β) : List (String × β) → List (String × β)
  | [] => [(k, v)]
  | (k', v') :: rest => if k' = k then (k, v) :: rest else (k', v') :: mapSet k v rest

/-- The struct `Manager`. -/
structure Manager where
  plugins : List (String × ConnectorPlugin)

/-- The manager `GetManager` creates: an empty map. -/
def Manager.empty : Manager := ⟨[]⟩

/-! ## LoadPlugins -/

/-- The pointer passed to `lookupAndAssign` as `target`: the address of one of
the five function fields, or (`other`) a pointer of any other type. -/
inductive Target where
  | getConfigFields
  | createSession
  | destroySession
  | testConnection
  | fetchData
  | other

/-- Message of the panic of a failed type assertion. -/
def assertPanic (sym : Symbol) (want : String) : String :=
  "interface conversion: plugin.Symbol is " ++ sym.goType ++ ", not " ++ want

/-- The closure `lookupAndAssign` of `LoadPlugins`. `Except.error` is a panic;
otherwise the returned `bool` and the plugin instance after the assignment. -/
def lookupAndAssign (p : Plugin) (inst : ConnectorPlugin) (name : String) (target : Target) :
    Except String (Bool × ConnectorPlugin) :=
  match p.Lookup name with
  | none => .ok (false, inst)
  | some sym =>
    match target with
    | .getConfigFields =>
      match sym with
      | .funcConfigFields f => .ok (true, { inst with getConfigFields := some f })
      | _ => .error (assertPanic sym "func() []plugins.ConfigField")
    | .createSession =>
      match sym with
      | .funcCreate f => .ok (true, { inst with createSession := some f })
      | _ => .error (assertPanic sym "func(string) plugins.SessionHandle")
    | .destroySession =>
      match sym with
      | .funcDestroy f => .ok (true, { inst with destroySession := some f })
      | _ => .error (assertPanic sym "func(plugins.SessionHandle)")
    | .testConnection =>
      match sym with
      | .funcTest f => .ok (true, { inst with testConnection := some f })
      | _ => .error (assertPanic sym "func(plugins.SessionHandle) bool")
    | .fetchData =>
      match sym with
      | .funcFetch f => .ok (true, { inst with fetchData := some f })
      | _ => .error (assertPanic sym "func(plugins.SessionHandle) string")
    | .other => .ok (false, inst)

/-- The statement `ok = ok && lookupAndAssign(name, target)`: the call on the
right is made only when `ok` is true, and a panic propagates. -/
def andLookup (r : Except String (Bool × ConnectorPlugin)) (p : Plugin) (name : String)
    (target : Target) : Except String (Bool × ConnectorPlugin) :=
  match r with
  | .error e => .error e
  | .ok (false, inst) => .ok (false, inst)
  | .ok (true, inst) => lookupAndAssign p inst name target

/-- Lines 110-115 of manager.go: the five bindings in order. -/
def bindEntryPoints (p : Plugin) (inst : ConnectorPlugin) : Except String (Bool × ConnectorPlugin) :=
  andLookup (andLookup (andLookup (andLookup
    (lookupAndAssign p inst "GetConfigFields" .getConfigFields)
    p "CreateSession" .createSession)
    p "DestroySession" .destroySession)
    p "TestConnection" .testConnection)
    p "FetchData" .fetchData

/-- Lines 79-83 of manager.go: the fresh `ConnectorPlugin` with only `plugin`,
`info` and `getInfo` set; the five other function fields are `nil`. -/
def newInstance (p : Plugin) (info : ConnectorInfo) (getInfoFunc : Unit → ConnectorInfo) :
    ConnectorPlugin :=
  { plugin := p, info := info, getInfo := some getInfoFunc,
    getConfigFields := none, createSession := none, destroySession := none,
    testConnection := none, fetchData := none }

/-- State after one iteration of the loop of `LoadPlugins`: the manager, the
events of the iteration, and the panic message if the iteration panicked. -/
structure StepResult where
  m : Manager
  events : List Event
  panicked : Option String

/-- One iteration of the loop of `LoadPlugins`, for the entry `file`. -/
def loadFile (m : Manager) (file : DirEntry) : StepResult :=
  let ext := Ext file.path
  if ext ≠ ".dll" ∧ ext ≠ ".so" ∧ ext ≠ ".dylib" then
    ⟨m, [], none⟩
  else
    match file.opened with
    | .error _ => ⟨m, [.open file.path], none⟩
    | .ok p =>
      match p.Lookup "GetConnectorInfo" with
      | none => ⟨m, [.open file.path], none⟩
      | some (.funcInfo getInfoFunc) =>
        let info := getInfoFunc ()
        let evs := [Event.open file.path, Event.call p.pluginpath .GetConnectorInfo .none]
        if info.ApiVersion ≠ ConnectorApiVersion then
          ⟨m, evs, none⟩
        else
          let pluginInstance := newInstance p info getInfoFunc
          match bindEntryPoints p pluginInstance with
          | .error e => ⟨m, evs, some e⟩
          | .ok (false, _) => ⟨m, evs, none⟩
          | .ok (true, inst) => ⟨⟨mapSet info.ID inst m.plugins⟩, evs, none⟩
      | some _ => ⟨m, [.open file.path], none⟩

/-- How a call ended: it returned a value, or it panicked. -/
inductive Outcome (α : Type) where
  | returned (a : α)
  | panicked (msg : String)
deriving DecidableEq

/-- Result of a manager operation: how it ended, the manager afterwards, and the
events it caused. -/
structure OpResult (α : Type) where
  outcome : Outcome α
  m : Manager
  events : List Event

/-- The loop `for _, file := range files` followed by `return nil`. The returned
value is the `error` (`none` is `nil`). -/
def loadLoop : Manager → List DirEntry → OpResult (Option String)
  | m, [] => ⟨.returned none, m, []⟩
  | m, file :: rest =>
    let r := loadFile m file
    match r.panicked with
    | some e => ⟨.panicked e, r.m, r.events⟩
    | none =>
      let r' := loadLoop r.m rest
      ⟨r'.outcome, r'.m, r.events ++ r'.events⟩

/-- The method `Manager.LoadPlugins`; `glob` is what `filepath.Glob` returns for
the plugin directory. -/
def LoadPlugins (m : Manager) (glob : Except String (List DirEntry)) : OpResult (Option String) :=
  match glob with
  | .error err => ⟨.returned (some err), m, []⟩
  | .ok files => loadLoop m files

/-! ## Caller-facing operations -/

/-- Message of the panic of calling a nil function. -/
def nilPanic : String := "runtime error: invalid memory address or nil pointer dereference"

/-- The method `Manager.GetAllPlugins`; `order` is the order in which the
`range` over the map visits the entries. -/
def GetAllPlugins (m : Manager)
    (order : List (String × ConnectorPlugin) → List (String × ConnectorPlugin)) :
    OpResult (List ConnectorInfo) :=
  ⟨.returned ((order m.plugins).map (fun kv => kv.2.info)), m, []⟩

/-- The method `Manager.GetPluginConfigFields`. -/
def GetPluginConfigFields (m : Manager) (pluginID : String) :
    OpResult (Option (List ConfigField) × Option String) :=
  match mapGet pluginID m.plugins with
  | none => ⟨.returned (none, some ("插件 " ++ pluginID ++ " 不存在")), m, []⟩
  | some p =>
    match p.getConfigFields with
    | none => ⟨.panicked nilPanic, m, []⟩
    | some f => ⟨.returned (some (f ()), none), m,
        [.call p.plugin.pluginpath .GetConfigFields .none]⟩

/-- The method `Manager.CreateSession`; `marshal` is `json.Marshal` on the
config type `C`, followed by the conversion to `string`. -/
def CreateSession {C : Type} (marshal : C → Except String String) (m : Manager)
    (pluginID : String) (config : C) : OpResult (Option Session × Option String) :=
  match mapGet pluginID m.plugins with
  | none => ⟨.returned (none, some ("插件 " ++ pluginID ++ " 不存在")), m, []⟩
  | some p =>
    match marshal config with
    | .error err => ⟨.returned (none, some ("序列化配置失败: " ++ err)), m, []⟩
    | .ok configJSON =>
      match p.createSession with
      | none => ⟨.panicked nilPanic, m, []⟩
      | some f => ⟨.returned (some ⟨pluginID, f configJSON⟩, none), m,
          [.call p.plugin.pluginpath .CreateSession (.str configJSON)]⟩

/-- The method `Manager.DestroySession`; the session pointer may be `nil`. -/
def DestroySession (m : Manager) (session : Option Session) : OpResult (Option String) :=
  match session with
  | none => ⟨.returned (some "session 不能为空"), m, []⟩
  | some s =>
    match mapGet s.PluginID m.plugins with
    | none => ⟨.returned (some ("会话所属的插件 " ++ s.PluginID ++ " 不存在或已被卸载")), m, []⟩
    | some p =>
      match p.destroySession with
      | none => ⟨.panicked nilPanic, m, []⟩
      | some _ => ⟨.returned none, m,
          [.call p.plugin.pluginpath .DestroySession (.handle s.Handle)]⟩

/-- The method `Manager.TestConnection`. -/
def TestConnection (m : Manager) (session : Option Session) : OpResult (Bool × Option String) :=
  match session with
  | none => ⟨.returned (false, some "session 不能为空"), m, []⟩
  | some s =>
    match mapGet s.PluginID m.plugins with
    | none => ⟨.returned (false, some ("会话所属的插件 " ++ s.PluginID ++ " 不存在")), m, []⟩
    | some p =>
      match p.testConnection with
      | none => ⟨.panicked nilPanic, m, []⟩
      | some f => ⟨.returned (f s.Handle, none), m,
          [.call p.plugin.pluginpath .TestConnection (.handle s.Handle)]⟩

/-- The method `Manager.FetchData`. -/
def FetchData (m : Manager) (session : Option Session) : OpResult (String × Option String) :=
  match session with
  | none => ⟨.returned ("", some "session 不能为空"), m, []⟩
  | some s =>
    match mapGet s.PluginID m.plugins with
    | none => ⟨.returned ("", some ("会话所属的插件 " ++ s.PluginID ++ " 不存在")), m, []⟩
    | some p =>
      match p.fetchData with
      | none => ⟨.panicked nilPanic, m, []⟩
      | some f => ⟨.returned (f s.Handle, none), m,
          [.call p.plugin.pluginpath .FetchData (.handle s.Handle)]⟩

/-! ## Fixtures used by the concrete evaluations -/

/-- A descriptor with the given identifier, name and version. -/
def mkInfo (id name : String) (v : Nat) : ConnectorInfo := ⟨id, name, "", v⟩

/-- A module exporting all six entry points with the expected types. -/
def goodPlugin (path id name : String) (h : SessionHandle) (payload : String) : Plugin :=
  { pluginpath := path,
    syms := [("GetConnectorInfo", .funcInfo (fun _ => mkInfo id name 1)),
             ("GetConfigFields", .funcConfigFields (fun _ => [⟨"path", "Path", "text", "", ""⟩])),
             ("CreateSession", .funcCreate (fun _ => h)),
             ("DestroySession", .funcDestroy (fun _ => ())),
             ("TestConnection", .funcTest (fun _ => true)),
             ("FetchData", .funcFetch (fun _ => payload))] }

/-- A module with version 2 that otherwise exports everything as expected. -/
def wrongVersionPlugin (path id name : String) : Plugin :=
  { pluginpath := path,
    syms := [("GetConnectorInfo", .funcInfo (fun _ => mkInfo id name 2)),
             ("GetConfigFields", .funcConfigFields (fun _ => [])),
             ("CreateSession", .funcCreate (fun _ => 0)),
             ("DestroySession", .funcDestroy (fun _ => ())),
             ("TestConnection", .funcTest (fun _ => true)),
             ("FetchData", .funcFetch (fun _ => ""))] }

/-- A module of version 1 that lacks `FetchData`. -/
def incompletePlugin (path id name : String) : Plugin :=
  { pluginpath := path,
    syms := [("GetConnectorInfo", .funcInfo (fun _ => mkInfo id name 1)),
             ("GetConfigFields", .funcConfigFields (fun _ => [])),
             ("CreateSession", .funcCreate (fun _ => 0)),
             ("DestroySession", .funcDestroy (fun _ => ())),
             ("TestConnection", .funcTest (fun _ => true))] }

/-- A module of version 1 whose `GetConfigFields` has the type `func() string`. -/
def mistypedPlugin (path id name : String) : Plugin :=
  { pluginpath := path,
    syms := [("GetConnectorInfo", .funcInfo (fun _ => mkInfo id name 1)),
             ("GetConfigFields", .other "func() string"),
             ("CreateSession", .funcCreate (fun _ => 0)),
             ("DestroySession", .funcDestroy (fun _ => ())),
             ("TestConnection", .funcTest (fun _ => true)),
             ("FetchData", .funcFetch (fun _ => ""))] }

/-- A regular file at `path` that opens as the module `p`. -/
def moduleFile (path : String) (p : Plugin) : DirEntry := ⟨path, .regular, .ok p⟩

/-! ## Predicates used by the statements -/

/-- All five function references of a registry entry are bound (non-nil). -/
def FullyBound (cp : ConnectorPlugin) : Prop :=
  cp.getConfigFields.isSome ∧ cp.createSession.isSome ∧ cp.destroySession.isSome ∧
    cp.testConnection.isSome ∧ cp.fetchData.isSome

/-- The five entry points bound after `GetConnectorInfo`. -/
def requiredEntryPoints : List String :=
  ["GetConfigFields", "CreateSession", "DestroySession", "TestConnection", "FetchData"]

/-- Registry states reachable from the empty registry by runs of `LoadPlugins`
(runs that end in a panic included). -/
inductive Reachable : Manager → Prop where
  | empty : Reachable Manager.empty
  | load (m : Manager) (glob : Except String (List DirEntry)) :
      Reachable m → Reachable (LoadPlugins m glob).m

/-- The record `bindEntryPoints` produces from `inst` when the five functions
are found with the expected types. -/
def boundInstance (inst : ConnectorPlugin) (f1 : Unit → List ConfigField)
    (f2 : String → SessionHandle) (f3 : SessionHandle → Unit) (f4 : SessionHandle → Bool)
    (f5 : SessionHandle → String) : ConnectorPlugin :=
  { inst with getConfigFields := some f1, createSession := some f2, destroySession := some f3,
              testConnection := some f4, fetchData := some f5 }

/-- The file name carries one of the three module extensions. -/
def moduleExt (path : String) : Prop :=
  Ext path = ".dll" ∨ Ext path = ".so" ∨ Ext path = ".dylib"

instance (path : String) : Decidable (moduleExt path) := by
  unfold moduleExt; exact inferInstance

/-- The descriptor the `GetConnectorInfo` of a candidate reports, if the
candidate opens and exports a function of that name and type. -/
def reportedInfo (file : DirEntry) : Option ConnectorInfo :=
  match file.opened with
  | .ok p =>
    match p.Lookup "GetConnectorInfo" with
    | some (.funcInfo g) => some (g ())
    | _ => none
  | .error _ => none

/-- The module exports `name` with a type accepted by `isT`. -/
def exportsAs (p : Plugin) (name : String) (isT : Symbol → Bool) : Bool :=
  match p.Lookup name with
  | some sym => isT sym
  | none => false

/-- A valid module, in the words of the specification: an enumerated entry with
a module extension that opens, has a well-typed `GetConnectorInfo` reporting
the expected version, and exports all five entry points with their types. -/
def validModule (file : DirEntry) : Bool :=
  decide (moduleExt file.path) &&
  (match reportedInfo file with
   | some info => decide (info.ApiVersion = ConnectorApiVersion)
   | none => false) &&
  (match file.opened with
   | .ok p =>
     exportsAs p "GetConfigFields" (fun sym => sym matches .funcConfigFields _) &&
     exportsAs p "CreateSession" (fun sym => sym matches .funcCreate _) &&
     exportsAs p "DestroySession" (fun sym => sym matches .funcDestroy _) &&
     exportsAs p "TestConnection" (fun sym => sym matches .funcTest _) &&
     exportsAs p "FetchData" (fun sym => sym matches .funcFetch _)
   | .error _ => false)

/-- The descriptors reported by the valid modules of a directory, in
enumeration order. -/
def validInfos (files : List DirEntry) : List ConnectorInfo :=
  (files.filter validModule).filterMap reportedInfo

/-- The paths of the `plugin.Open` attempts among the events, in order. -/
def openedPaths : List Event → List String
  | [] => []
  | .open path :: rest => path :: openedPaths rest
  | .call _ _ _ :: rest => openedPaths rest

/-- A subdirectory at `path`; `plugin.Open` fails on it. -/
def subdirectory (path : String) : DirEntry := ⟨path, .directory, .error "not a plugin"⟩

/-- A stand-in for `json.Marshal` used only by the concrete evaluations, at the
one-key config `path = x`, where it yields what `json.Marshal` yields. It is
not a model of `json.Marshal` in general (it neither sorts keys nor escapes,
and has no nil map); the theorems quantify over every `marshal`. -/
def marshalStrings (config : List (String × String)) : Except String String :=
  .ok ("\x7b" ++ String.intercalate ","
    (config.map (fun kv => "\"" ++ kv.1 ++ "\":\"" ++ kv.2 ++ "\"")) ++ "\x7d")

/-- The fixture module of the round trip: it issues the handle 7 for the config
`\x7b"path":"x"\x7d`, reports a live connection for that handle and returns
the payload `\x7b"rows":[]\x7d` for it. -/
def fixturePlugin : Plugin :=
  { pluginpath := "dll/fixture.so",
    syms := [("GetConnectorInfo", .funcInfo (fun _ => mkInfo "com.fixture" "Fixture" 1)),
             ("GetConfigFields", .funcConfigFields (fun _ => [⟨"path", "Path", "text", "", ""⟩])),
             ("CreateSession", .funcCreate (fun s => if s = "\x7b\"path\":\"x\"\x7d" then 7 else 0)),
             ("DestroySession", .funcDestroy (fun _ => ())),
             ("TestConnection", .funcTest (fun h => decide (h = 7))),
             ("FetchData", .funcFetch (fun h => if h = 7 then "\x7b\"rows\":[]\x7d" else ""))] }

/-- The registry after loading the directory that holds only the fixture. -/
def fixtureManager : Manager :=
  (LoadPlugins Manager.empty (.ok [moduleFile "dll/fixture.so" fixturePlugin])).m

/-! # Theorems -/

/-! ## Lemmas on the map -/

theorem mem_mapSet {β : Type} (k : String) (v : β) (l : List (String × β)) (kv : String × β)
    (h : kv ∈ mapSet k v l) : kv = (k, v) ∨ kv ∈ l := by
  induction l with
  | nil => simp [mapSet] at h; exact Or.inl h
  | cons hd tl ih =>
    obtain ⟨k', v'⟩ := hd
    unfold mapSet at h
    split at h
    · rcases List.mem_cons.mp h with h | h
      · exact Or.inl h
      · exact Or.inr (List.mem_cons_of_mem _ h)
    · rcases List.mem_cons.mp h with h | h
      · exact Or.inr (h ▸ List.mem_cons_self _ _)
      · rcases ih h with h | h
        · exact Or.inl h
        · exact Or.inr (List.mem_cons_of_mem _ h)

theorem mapSet_of_not_mem {β : Type} (k : String) (v : β) (l : List (String × β))
    (h : k ∉ l.map Prod.fst) : mapSet k v l = l ++ [(k, v)] := by
  induction l with
  | nil => rfl
  | cons hd tl ih =>
    obtain ⟨k', v'⟩ := hd
    simp only [List.map_cons, List.mem_cons, not_or] at h
    have hne : ¬ k' = k := fun e => h.1 e.symm
    simp [mapSet, hne, ih h.2]

theorem mapGet_mapSet_self {β : Type} (k : String) (v : β) (l : List (String × β)) :
    mapGet k (mapSet k v l) = some v := by
  induction l with
  | nil => simp [mapSet, mapGet]
  | cons hd tl ih =>
    obtain ⟨k', v'⟩ := hd
    by_cases hk : k' = k
    · simp [mapSet, mapGet, hk]
    · simp [mapSet, mapGet, hk, ih]

theorem mapGet_mapSet_ne {β : Type} (k k0 : String) (v : β) (l : List (String × β))
    (h : k ≠ k0) : mapGet k0 (mapSet k v l) = mapGet k0 l := by
  induction l with
  | nil => simp [mapSet, mapGet, h]
  | cons hd tl ih =>
    obtain ⟨k', v'⟩ := hd
    by_cases hk : k' = k
    · subst hk
      simp [mapSet, mapGet, h]
    · by_cases hk0 : k' = k0
      · subst hk0
        simp [mapSet, mapGet, hk]
      · simp [mapSet, mapGet, hk, hk0, ih]

theorem mem_keys_of_mapGet {β : Type} (k : String) (v : β) (l : List (String × β))
    (h : mapGet k l = some v) : k ∈ l.map Prod.fst := by
  induction l with
  | nil => simp [mapGet] at h
  | cons hd tl ih =>
    obtain ⟨k', v'⟩ := hd
    by_cases hk : k' = k
    · simp [hk]
    · simp only [mapGet, hk, if_false] at h
      simp [ih h]

theorem mapGet_none_of_not_mem {β : Type} (k : String) (l : List (String × β))
    (h : k ∉ l.map Prod.fst) : mapGet k l = none := by
  cases hg : mapGet k l with
  | none => rfl
  | some v => exact absurd (mem_keys_of_mapGet k v l hg) h

theorem keys_mapSet {β : Type} (k : String) (v : β) (l : List (String × β)) :
    (mapSet k v l).map Prod.fst =
      if k ∈ l.map Prod.fst then l.map Prod.fst else l.map Prod.fst ++ [k] := by
  induction l with
  | nil => simp [mapSet]
  | cons hd tl ih =>
    obtain ⟨k', v'⟩ := hd
    by_cases hk : k' = k
    · simp [mapSet, hk]
    · have hk' : ¬ k = k' := fun e => hk e.symm
      simp only [mapSet, hk, if_false, List.map_cons, ih, List.mem_cons, hk', false_or]
      split <;> simp

theorem nodup_keys_mapSet {β : Type} (k : String) (v : β) (l : List (String × β))
    (h : (l.map Prod.fst).Nodup) : ((mapSet k v l).map Prod.fst).Nodup := by
  rw [keys_mapSet]
  split
  · exact h
  · rename_i hk
    rw [List.nodup_append]
    exact ⟨h, List.nodup_singleton k, by
      intro a ha hb
      simp only [List.mem_singleton] at hb
      subst hb
      exact hk ha⟩

/-! ## Lemmas on the binding of entry points -/

theorem andLookup_true (r : Except String (Bool × ConnectorPlugin)) (p : Plugin) (name : String)
    (t : Target) (i' : ConnectorPlugin) (h : andLookup r p name t = .ok (true, i')) :
    ∃ i, r = .ok (true, i) ∧ lookupAndAssign p i name t = .ok (true, i') := by
  unfold andLookup at h
  split at h
  · cases h
  · cases h
  · exact ⟨_, rfl, h⟩

theorem lookup_getConfigFields_true (p : Plugin) (i i' : ConnectorPlugin) (name : String)
    (h : lookupAndAssign p i name .getConfigFields = .ok (true, i')) :
    ∃ f, p.Lookup name = some (.funcConfigFields f) ∧ i' = { i with getConfigFields := some f } := by
  unfold lookupAndAssign at h
  cases hl : p.Lookup name with
  | none => simp [hl] at h
  | some sym =>
    cases sym <;> simp [hl] at h
    exact ⟨_, rfl, h.symm⟩

theorem lookup_createSession_true (p : Plugin) (i i' : ConnectorPlugin) (name : String)
    (h : lookupAndAssign p i name .createSession = .ok (true, i')) :
    ∃ f, p.Lookup name = some (.funcCreate f) ∧ i' = { i with createSession := some f } := by
  unfold lookupAndAssign at h
  cases hl : p.Lookup name with
  | none => simp [hl] at h
  | some sym =>
    cases sym <;> simp [hl] at h
    exact ⟨_, rfl, h.symm⟩

theorem lookup_destroySession_true (p : Plugin) (i i' : ConnectorPlugin) (name : String)
    (h : lookupAndAssign p i name .destroySession = .ok (true, i')) :
    ∃ f, p.Lookup name = some (.funcDestroy f) ∧ i' = { i with destroySession := some f } := by
  unfold lookupAndAssign at h
  cases hl : p.Lookup name with
  | none => simp [hl] at h
  | some sym =>
    cases sym <;> simp [hl] at h
    exact ⟨_, rfl, h.symm⟩

theorem lookup_testConnection_true (p : Plugin) (i i' : ConnectorPlugin) (name : String)
    (h : lookupAndAssign p i name .testConnection = .ok (true, i')) :
    ∃ f, p.Lookup name = some (.funcTest f) ∧ i' = { i with testConnection := some f } := by
  unfold lookupAndAssign at h
  cases hl : p.Lookup name with
  | none => simp [hl] at h
  | some sym =>
    cases sym <;> simp [hl] at h
    exact ⟨_, rfl, h.symm⟩

theorem lookup_fetchData_true (p : Plugin) (i i' : ConnectorPlugin) (name : String)
    (h : lookupAndAssign p i name .fetchData = .ok (true, i')) :
    ∃ f, p.Lookup name = some (.funcFetch f) ∧ i' = { i with fetchData := some f } := by
  unfold lookupAndAssign at h
  cases hl : p.Lookup name with
  | none => simp [hl] at h
  | some sym =>
    cases sym <;> simp [hl] at h
    exact ⟨_, rfl, h.symm⟩

/-- Success of the binding means: all five symbols exist with the expected type,
and the instance holds exactly these five functions. -/
theorem bindEntryPoints_true (p : Plugin) (inst inst' : ConnectorPlugin)
    (h : bindEntryPoints p inst = .ok (true, inst')) :
    ∃ f1 f2 f3 f4 f5,
      p.Lookup "GetConfigFields" = some (.funcConfigFields f1) ∧
      p.Lookup "CreateSession" = some (.funcCreate f2) ∧
      p.Lookup "DestroySession" = some (.funcDestroy f3) ∧
      p.Lookup "TestConnection" = some (.funcTest f4) ∧
      p.Lookup "FetchData" = some (.funcFetch f5) ∧
      inst' = boundInstance inst f1 f2 f3 f4 f5 := by
  unfold bindEntryPoints at h
  obtain ⟨i4, h4, h⟩ := andLookup_true _ _ _ _ _ h
  obtain ⟨i3, h3, h4⟩ := andLookup_true _ _ _ _ _ h4
  obtain ⟨i2, h2, h3⟩ := andLookup_true _ _ _ _ _ h3
  obtain ⟨i1, h1, h2⟩ := andLookup_true _ _ _ _ _ h2
  obtain ⟨f1, e1, rfl⟩ := lookup_getConfigFields_true _ _ _ _ h1
  obtain ⟨f2, e2, rfl⟩ := lookup_createSession_true _ _ _ _ h2
  obtain ⟨f3, e3, rfl⟩ := lookup_destroySession_true _ _ _ _ h3
  obtain ⟨f4, e4, rfl⟩ := lookup_testConnection_true _ _ _ _ h4
  obtain ⟨f5, e5, rfl⟩ := lookup_fetchData_true _ _ _ _ h
  exact ⟨f1, f2, f3, f4, f5, e1, e2, e3, e4, e5, rfl⟩

/-- The converse: five well-typed symbols make the binding succeed. -/
theorem bindEntryPoints_of_lookups (p : Plugin) (inst : ConnectorPlugin)
    (f1 : Unit → List ConfigField) (f2 : String → SessionHandle) (f3 : SessionHandle → Unit)
    (f4 : SessionHandle → Bool) (f5 : SessionHandle → String)
    (e1 : p.Lookup "GetConfigFields" = some (.funcConfigFields f1))
    (e2 : p.Lookup "CreateSession" = some (.funcCreate f2))
    (e3 : p.Lookup "DestroySession" = some (.funcDestroy f3))
    (e4 : p.Lookup "TestConnection" = some (.funcTest f4))
    (e5 : p.Lookup "FetchData" = some (.funcFetch f5)) :
    bindEntryPoints p inst = .ok (true, boundInstance inst f1 f2 f3 f4 f5) := by
  simp [bindEntryPoints, andLookup, lookupAndAssign, e1, e2, e3, e4, e5, boundInstance]

/-- What one iteration does to the registry: nothing, or one insertion of a
fully bound record of a module with the expected version. -/
theorem loadFile_cases (m : Manager) (file : DirEntry) :
    (loadFile m file).m = m ∨
    ∃ p g f1 f2 f3 f4 f5,
      file.opened = .ok p ∧
      p.Lookup "GetConnectorInfo" = some (.funcInfo g) ∧
      (g ()).ApiVersion = ConnectorApiVersion ∧
      p.Lookup "GetConfigFields" = some (.funcConfigFields f1) ∧
      p.Lookup "CreateSession" = some (.funcCreate f2) ∧
      p.Lookup "DestroySession" = some (.funcDestroy f3) ∧
      p.Lookup "TestConnection" = some (.funcTest f4) ∧
      p.Lookup "FetchData" = some (.funcFetch f5) ∧
      moduleExt file.path ∧
      (loadFile m file).panicked = none ∧
      (loadFile m file).m =
        ⟨mapSet (g ()).ID (boundInstance (newInstance p (g ()) g) f1 f2 f3 f4 f5) m.plugins⟩ := by
  unfold loadFile
  simp only []
  split
  · exact Or.inl rfl
  · rename_i hext
    split
    · exact Or.inl rfl
    · rename_i p hp
      split
      · exact Or.inl rfl
      · rename_i g hg
        split
        · exact Or.inl rfl
        · rename_i hv
          split
          · exact Or.inl rfl
          · exact Or.inl rfl
          · rename_i inst hb
            obtain ⟨f1, f2, f3, f4, f5, e1, e2, e3, e4, e5, rfl⟩ := bindEntryPoints_true _ _ _ hb
            refine Or.inr ⟨p, g, f1, f2, f3, f4, f5, hp, hg, ?_, e1, e2, e3, e4, e5, ?_, rfl, rfl⟩
            · exact not_not.mp hv
            · unfold moduleExt
              by_contra hc
              exact hext (by simpa [not_or] using hc)
      · exact Or.inl rfl

/-- The loop body on a valid module: the fully bound record is stored under
the identifier the module reports, without a panic. -/
theorem loadFile_of_lookups (m : Manager) (file : DirEntry) (p : Plugin)
    (g : Unit → ConnectorInfo) (f1 : Unit → List ConfigField) (f2 : String → SessionHandle)
    (f3 : SessionHandle → Unit) (f4 : SessionHandle → Bool) (f5 : SessionHandle → String)
    (hext : moduleExt file.path)
    (hopen : file.opened = .ok p)
    (hinfo : p.Lookup "GetConnectorInfo" = some (.funcInfo g))
    (hver : (g ()).ApiVersion = ConnectorApiVersion)
    (e1 : p.Lookup "GetConfigFields" = some (.funcConfigFields f1))
    (e2 : p.Lookup "CreateSession" = some (.funcCreate f2))
    (e3 : p.Lookup "DestroySession" = some (.funcDestroy f3))
    (e4 : p.Lookup "TestConnection" = some (.funcTest f4))
    (e5 : p.Lookup "FetchData" = some (.funcFetch f5)) :
    (loadFile m file).m =
      ⟨mapSet (g ()).ID (boundInstance (newInstance p (g ()) g) f1 f2 f3 f4 f5) m.plugins⟩ ∧
    (loadFile m file).panicked = none := by
  have hb := bindEntryPoints_of_lookups p (newInstance p (g ()) g) f1 f2 f3 f4 f5 e1 e2 e3 e4 e5
  have hne : ¬ (Ext file.path ≠ ".dll" ∧ Ext file.path ≠ ".so" ∧ Ext file.path ≠ ".dylib") := by
    unfold moduleExt at hext
    intro hc
    rcases hext with h | h | h
    · exact hc.1 h
    · exact hc.2.1 h
    · exact hc.2.2 h
  unfold loadFile
  simp only [hopen, hinfo, hver, hb, if_neg hne]
  simp

/-- Unfolding of `validModule`. -/
theorem validModule_iff (file : DirEntry) :
    validModule file = true ↔
    moduleExt file.path ∧ ∃ p g f1 f2 f3 f4 f5,
      file.opened = .ok p ∧
      p.Lookup "GetConnectorInfo" = some (.funcInfo g) ∧
      (g ()).ApiVersion = ConnectorApiVersion ∧
      p.Lookup "GetConfigFields" = some (.funcConfigFields f1) ∧
      p.Lookup "CreateSession" = some (.funcCreate f2) ∧
      p.Lookup "DestroySession" = some (.funcDestroy f3) ∧
      p.Lookup "TestConnection" = some (.funcTest f4) ∧
      p.Lookup "FetchData" = some (.funcFetch f5) := by
  constructor
  · intro h
    unfold validModule reportedInfo at h
    simp only [Bool.and_eq_true, decide_eq_true_eq] at h
    obtain ⟨⟨hext, hinfo⟩, hrest⟩ := h
    refine ⟨hext, ?_⟩
    cases hp : file.opened with
    | error e => simp [hp] at hrest
    | ok p =>
      simp only [hp, Bool.and_eq_true] at hrest hinfo
      obtain ⟨⟨⟨⟨h1, h2⟩, h3⟩, h4⟩, h5⟩ := hrest
      unfold exportsAs at h1 h2 h3 h4 h5
      cases hg : p.Lookup "GetConnectorInfo" with
      | none => simp [hg] at hinfo
      | some sg =>
        cases h1' : p.Lookup "GetConfigFields" with
        | none => simp [h1'] at h1
        | some s1 =>
          cases h2' : p.Lookup "CreateSession" with
          | none => simp [h2'] at h2
          | some s2 =>
            cases h3' : p.Lookup "DestroySession" with
            | none => simp [h3'] at h3
            | some s3 =>
              cases h4' : p.Lookup "TestConnection" with
              | none => simp [h4'] at h4
              | some s4 =>
                cases h5' : p.Lookup "FetchData" with
                | none => simp [h5'] at h5
                | some s5 =>
                  cases sg <;> simp [hg] at hinfo
                  cases s1 <;> simp [h1'] at h1
                  cases s2 <;> simp [h2'] at h2
                  cases s3 <;> simp [h3'] at h3
                  cases s4 <;> simp [h4'] at h4
                  cases s5 <;> simp [h5'] at h5
                  exact ⟨p, _, _, _, _, _, _, rfl, hg, hinfo, h1', h2', h3', h4', h5'⟩
  · rintro ⟨hext, p, g, f1, f2, f3, f4, f5, hp, hg, hv, e1, e2, e3, e4, e5⟩
    simp [validModule, reportedInfo, exportsAs, hext, hp, hg, hv, e1, e2, e3, e4, e5]

/-- An entry that is not a valid module never changes the registry. -/
theorem loadFile_of_invalid (m : Manager) (file : DirEntry) (h : validModule file = false) :
    (loadFile m file).m = m := by
  rcases loadFile_cases m file with h' | ⟨p, g, f1, f2, f3, f4, f5, hp, hg, hv, e1, e2, e3, e4, e5, hext, _, _⟩
  · exact h'
  · have : validModule file = true :=
      (validModule_iff file).mpr ⟨hext, p, g, f1, f2, f3, f4, f5, hp, hg, hv, e1, e2, e3, e4, e5⟩
    rw [h] at this
    cases this

/-- An invariant of registry entries that every inserted record satisfies holds
after the loop if it held before. -/
theorem loadLoop_invariant (P : String × ConnectorPlugin → Prop)
    (hP : ∀ p g f1 f2 f3 f4 f5, (g ()).ApiVersion = ConnectorApiVersion →
      P ((g ()).ID, boundInstance (newInstance p (g ()) g) f1 f2 f3 f4 f5))
    (files : List DirEntry) :
    ∀ m : Manager, (∀ kv ∈ m.plugins, P kv) → ∀ kv ∈ (loadLoop m files).m.plugins, P kv := by
  induction files with
  | nil => intro m hm; simpa [loadLoop] using hm
  | cons file rest ih =>
    intro m hm
    have hstep : ∀ kv ∈ (loadFile m file).m.plugins, P kv := by
      rcases loadFile_cases m file with h | ⟨p, g, f1, f2, f3, f4, f5, _, _, hv, _, _, _, _, _, _, _, h⟩
      · rw [h]; exact hm
      · rw [h]
        intro kv hkv
        rcases mem_mapSet _ _ _ _ hkv with h' | h'
        · rw [h']; exact hP p g f1 f2 f3 f4 f5 hv
        · exact hm kv h'
    unfold loadLoop
    simp only []
    split
    · exact hstep
    · exact ih _ hstep

/-- The invariant carries over to `LoadPlugins` and to every reachable registry. -/
theorem reachable_invariant (P : String × ConnectorPlugin → Prop)
    (hP : ∀ p g f1 f2 f3 f4 f5, (g ()).ApiVersion = ConnectorApiVersion →
      P ((g ()).ID, boundInstance (newInstance p (g ()) g) f1 f2 f3 f4 f5))
    (m : Manager) (hm : Reachable m) : ∀ kv ∈ m.plugins, P kv := by
  induction hm with
  | empty => intro kv hkv; simp [Manager.empty] at hkv
  | load m glob _ ih =>
    cases glob with
    | error e => simpa [LoadPlugins] using ih
    | ok files => simpa [LoadPlugins] using loadLoop_invariant P hP files m ih

/-- A skipped entry leaves the rest of the run as it would be without it. -/
theorem loadLoop_skip (m : Manager) (file : DirEntry) (rest : List DirEntry)
    (hm : (loadFile m file).m = m) (hp : (loadFile m file).panicked = none) :
    (loadLoop m (file :: rest)).m = (loadLoop m rest).m ∧
    (loadLoop m (file :: rest)).outcome = (loadLoop m rest).outcome := by
  simp [loadLoop, hp, hm]

/-- The loop never returns an error: it returns `nil` or panics. -/
theorem loadLoop_outcome (files : List DirEntry) :
    ∀ m : Manager, (loadLoop m files).outcome = .returned none ∨
      ∃ msg, (loadLoop m files).outcome = .panicked msg := by
  induction files with
  | nil => intro m; exact Or.inl rfl
  | cons file rest ih =>
    intro m
    unfold loadLoop
    simp only []
    split
    · exact Or.inr ⟨_, rfl⟩
    · exact ih _

/-- A run that does not panic returns `nil`. -/
theorem loadLoop_returned_of_no_panic (files : List DirEntry) (m : Manager)
    (h : ∀ msg, (loadLoop m files).outcome ≠ .panicked msg) :
    (loadLoop m files).outcome = .returned none := by
  rcases loadLoop_outcome files m with h' | ⟨msg, h'⟩
  · exact h'
  · exact absurd h' (h msg)

/-- One step of a run that returns. -/
theorem loadLoop_cons_returned (m : Manager) (file : DirEntry) (rest : List DirEntry)
    (h : (loadLoop m (file :: rest)).outcome = .returned none) :
    (loadFile m file).panicked = none ∧
    (loadLoop (loadFile m file).m rest).outcome = .returned none ∧
    (loadLoop m (file :: rest)).m = (loadLoop (loadFile m file).m rest).m := by
  cases hp : (loadFile m file).panicked with
  | some e => simp [loadLoop, hp] at h
  | none =>
    simp only [loadLoop, hp] at h ⊢
    exact ⟨trivial, h, trivial⟩

/-- A run over `pre ++ post` that returns is the run over `pre` followed by the
run over `post`. -/
theorem loadLoop_append_returned (pre post : List DirEntry) :
    ∀ m : Manager, (loadLoop m (pre ++ post)).outcome = .returned none →
      (loadLoop m pre).outcome = .returned none ∧
      (loadLoop (loadLoop m pre).m post).outcome = .returned none ∧
      (loadLoop m (pre ++ post)).m = (loadLoop (loadLoop m pre).m post).m := by
  induction pre with
  | nil => intro m h; exact ⟨rfl, h, rfl⟩
  | cons file rest ih =>
    intro m h
    obtain ⟨hp, hr, hm⟩ := loadLoop_cons_returned m file (rest ++ post) h
    obtain ⟨h1, h2, h3⟩ := ih _ hr
    have e : ∀ l, loadLoop m (file :: l) = ⟨(loadLoop (loadFile m file).m l).outcome,
        (loadLoop (loadFile m file).m l).m,
        (loadFile m file).events ++ (loadLoop (loadFile m file).m l).events⟩ := by
      intro l
      conv => lhs; unfold loadLoop
      simp [hp]
    have e0 := e rest
    have e1 := e (rest ++ post)
    simp only [List.cons_append] at *
    rw [e0, e1]
    exact ⟨h1, h2, h3⟩

/-- Keys stay unique during the loop. -/
theorem loadLoop_nodup_keys (files : List DirEntry) :
    ∀ m : Manager, (m.plugins.map Prod.fst).Nodup →
      ((loadLoop m files).m.plugins.map Prod.fst).Nodup := by
  induction files with
  | nil => intro m hm; simpa [loadLoop] using hm
  | cons file rest ih =>
    intro m hm
    have hstep : ((loadFile m file).m.plugins.map Prod.fst).Nodup := by
      rcases loadFile_cases m file with h | ⟨p, g, f1, f2, f3, f4, f5, _, _, _, _, _, _, _, _, _, _, h⟩
      · rw [h]; exact hm
      · rw [h]; exact nodup_keys_mapSet _ _ _ hm
    unfold loadLoop
    simp only []
    split
    · exact hstep
    · exact ih _ hstep

/-- Entries under an identifier that no later valid module reports are kept by
the rest of the loop. -/
theorem loadLoop_mapGet_kept (id : String) (files : List DirEntry)
    (hlast : ∀ f ∈ files, validModule f = true → ∀ i, reportedInfo f = some i → i.ID ≠ id) :
    ∀ m : Manager, mapGet id (loadLoop m files).m.plugins = mapGet id m.plugins := by
  induction files with
  | nil => intro m; rfl
  | cons file rest ih =>
    intro m
    have hrest : ∀ f ∈ rest, validModule f = true → ∀ i, reportedInfo f = some i → i.ID ≠ id :=
      fun f hf => hlast f (List.mem_cons_of_mem _ hf)
    have hstep : mapGet id (loadFile m file).m.plugins = mapGet id m.plugins := by
      rcases loadFile_cases m file with h | ⟨p, g, f1, f2, f3, f4, f5, hp, hg, hv, e1, e2, e3, e4, e5, hext, _, h⟩
      · rw [h]
      · rw [h]
        have hvalid : validModule file = true :=
          (validModule_iff file).mpr ⟨hext, p, g, f1, f2, f3, f4, f5, hp, hg, hv, e1, e2, e3, e4, e5⟩
        have hrep : reportedInfo file = some (g ()) := by simp [reportedInfo, hp, hg]
        exact mapGet_mapSet_ne _ _ _ _ (hlast file (List.mem_cons_self _ _) hvalid _ hrep)
    unfold loadLoop
    simp only []
    split
    · exact hstep
    · rw [ih hrest, hstep]

/-- In a run that returns, over a directory whose valid modules report
pairwise distinct identifiers that are also new to the registry, the registry
grows by exactly the descriptors of the valid modules, in enumeration order. -/
theorem loadLoop_infos (files : List DirEntry) :
    ∀ m : Manager, (loadLoop m files).outcome = .returned none →
      (m.plugins.map Prod.fst ++ (validInfos files).map (fun i => i.ID)).Nodup →
      (loadLoop m files).m.plugins.map (fun kv => (kv.1, kv.2.info)) =
        m.plugins.map (fun kv => (kv.1, kv.2.info)) ++
          (validInfos files).map (fun i => (i.ID, i)) := by
  induction files with
  | nil => intro m _ _; simp [loadLoop, validInfos]
  | cons file rest ih =>
    intro m hret hnd
    obtain ⟨_, hr, hm⟩ := loadLoop_cons_returned m file rest hret
    rw [hm]
    cases hval : validModule file with
    | false =>
      have hvi : validInfos (file :: rest) = validInfos rest := by
        simp [validInfos, List.filter_cons, hval]
      rw [hvi] at hnd ⊢
      have hstep := loadFile_of_invalid m file hval
      rw [hstep] at hr ⊢
      exact ih m hr hnd
    | true =>
      obtain ⟨hext, p, g, f1, f2, f3, f4, f5, hp, hg, hv, e1, e2, e3, e4, e5⟩ :=
        (validModule_iff file).mp hval
      have hrep : reportedInfo file = some (g ()) := by simp [reportedInfo, hp, hg]
      have hvi : validInfos (file :: rest) = g () :: validInfos rest := by
        simp [validInfos, List.filter_cons, hval, hrep]
      rw [hvi] at hnd ⊢
      obtain ⟨hstep, _⟩ := loadFile_of_lookups m file p g f1 f2 f3 f4 f5 hext hp hg hv e1 e2 e3 e4 e5
      have hnew : (g ()).ID ∉ m.plugins.map Prod.fst := by
        intro hmem
        rw [List.nodup_append] at hnd
        exact hnd.2.2 hmem (by simp)
      rw [mapSet_of_not_mem _ _ _ hnew] at hstep
      rw [hstep] at hr ⊢
      have hnd' : ((m.plugins ++ [((g ()).ID, boundInstance (newInstance p (g ()) g) f1 f2 f3 f4 f5)]).map
          Prod.fst ++ (validInfos rest).map (fun i => i.ID)).Nodup := by
        simpa using hnd
      have := ih _ hr hnd'
      rw [this]
      simp [boundInstance, newInstance]

/-- Keys are never removed by the loop. -/
theorem loadLoop_keys_mono (k : String) (files : List DirEntry) :
    ∀ m : Manager, k ∈ m.plugins.map Prod.fst → k ∈ (loadLoop m files).m.plugins.map Prod.fst := by
  induction files with
  | nil => intro m hm; simpa [loadLoop] using hm
  | cons file rest ih =>
    intro m hm
    have hstep : k ∈ (loadFile m file).m.plugins.map Prod.fst := by
      rcases loadFile_cases m file with h | ⟨p, g, f1, f2, f3, f4, f5, _, _, _, _, _, _, _, _, _, _, h⟩
      · rw [h]; exact hm
      · rw [h, keys_mapSet]
        split
        · exact hm
        · exact List.mem_append_left _ hm
    unfold loadLoop
    simp only []
    split
    · exact hstep
    · exact ih _ hstep

/-- What holds of partial-failure tolerance: a run that does not panic returns
nil, and afterwards the registry has an entry under the identifier of every
valid module of the directory, whatever the other entries are. -/
theorem load_keeps_valid_modules (files : List DirEntry) :
    ∀ m : Manager, (∀ msg, (LoadPlugins m (.ok files)).outcome ≠ .panicked msg) →
      (LoadPlugins m (.ok files)).outcome = .returned none ∧
      ∀ f ∈ files, validModule f = true → ∀ i, reportedInfo f = some i →
        i.ID ∈ (LoadPlugins m (.ok files)).m.plugins.map Prod.fst := by
  induction files with
  | nil => intro m _; exact ⟨rfl, fun f hf => by cases hf⟩
  | cons file rest ih =>
    intro m hnp
    have hret : (loadLoop m (file :: rest)).outcome = .returned none :=
      loadLoop_returned_of_no_panic _ m hnp
    refine ⟨hret, fun f hf hval i hi => ?_⟩
    obtain ⟨_, hr, hm⟩ := loadLoop_cons_returned m file rest hret
    simp only [LoadPlugins]
    rw [hm]
    rcases List.mem_cons.mp hf with hf | hf
    · subst hf
      obtain ⟨hext, p, g, f1, f2, f3, f4, f5, hp, hg, hv, e1, e2, e3, e4, e5⟩ :=
        (validModule_iff f).mp hval
      have hrep : reportedInfo f = some (g ()) := by simp [reportedInfo, hp, hg]
      rw [hi] at hrep
      cases hrep
      obtain ⟨hstep, _⟩ := loadFile_of_lookups m f p g f1 f2 f3 f4 f5 hext hp hg hv e1 e2 e3 e4 e5
      apply loadLoop_keys_mono
      rw [hstep]
      exact mem_keys_of_mapGet _ _ _ (mapGet_mapSet_self _ _ _)
    · have hnp' : ∀ msg, (LoadPlugins (loadFile m file).m (.ok rest)).outcome ≠ .panicked msg := by
        intro msg hc
        simp only [LoadPlugins] at hc
        rw [hr] at hc
        cases hc
      exact (ih (loadFile m file).m hnp').2 f hf hval i hi

/-- Unfolding of the loop at an entry whose iteration does not panic. -/
theorem loadLoop_cons_of_no_panic (m : Manager) (file : DirEntry) (rest : List DirEntry)
    (hp : (loadFile m file).panicked = none) :
    loadLoop m (file :: rest) =
      ⟨(loadLoop (loadFile m file).m rest).outcome, (loadLoop (loadFile m file).m rest).m,
        (loadFile m file).events ++ (loadLoop (loadFile m file).m rest).events⟩ := by
  conv => lhs; unfold loadLoop
  simp [hp]

/-- When the loop over `pre` returns, the loop over `pre ++ post` continues with
`post` from the state reached, whether or not that continuation panics. -/
theorem loadLoop_append_of_returned (pre post : List DirEntry) :
    ∀ m : Manager, (loadLoop m pre).outcome = .returned none →
      loadLoop m (pre ++ post) =
        ⟨(loadLoop (loadLoop m pre).m post).outcome, (loadLoop (loadLoop m pre).m post).m,
          (loadLoop m pre).events ++ (loadLoop (loadLoop m pre).m post).events⟩ := by
  induction pre with
  | nil => intro m _; simp [loadLoop]
  | cons file rest ih =>
    intro m h
    obtain ⟨hp, hr, _⟩ := loadLoop_cons_returned m file rest h
    rw [List.cons_append, loadLoop_cons_of_no_panic m file (rest ++ post) hp,
      loadLoop_cons_of_no_panic m file rest hp, ih _ hr]
    simp

/-- A loop none of whose iterations panics returns nil. -/
theorem loadLoop_returned_of_steps (files : List DirEntry)
    (h : ∀ f ∈ files, ∀ m' : Manager, (loadFile m' f).panicked = none) :
    ∀ m : Manager, (loadLoop m files).outcome = .returned none := by
  induction files with
  | nil => intro m; rfl
  | cons file rest ih =>
    intro m
    rw [loadLoop_cons_of_no_panic m file rest (h file (List.mem_cons_self _ _) m)]
    exact ih (fun f hf => h f (List.mem_cons_of_mem _ hf)) _

/-! ## C1: version gate -/

/-- C1. For a candidate module whose `GetConnectorInfo` has the expected type:
if it reports an `ApiVersion` different from `ConnectorApiVersion`, the
iteration leaves the registry as it was and does not panic, so the run of
`LoadPlugins` continues as if the entry were absent; conversely an iteration
that changes the registry is one of a module reporting exactly
`ConnectorApiVersion`; and every entry of a registry reachable from the empty
one carries `ApiVersion = ConnectorApiVersion`. -/
theorem version_mismatch_skipped (m : Manager) (file : DirEntry) (p : Plugin)
    (g : Unit → ConnectorInfo) (rest : List DirEntry) (m' : Manager)
    (hopen : file.opened = .ok p)
    (hinfo : p.Lookup "GetConnectorInfo" = some (.funcInfo g))
    (hreach : Reachable m') :
    ((g ()).ApiVersion ≠ ConnectorApiVersion →
      (loadFile m file).m = m ∧ (loadFile m file).panicked = none ∧
      (loadLoop m (file :: rest)).m = (loadLoop m rest).m ∧
      (loadLoop m (file :: rest)).outcome = (loadLoop m rest).outcome) ∧
    ((loadFile m file).m ≠ m → (g ()).ApiVersion = ConnectorApiVersion) ∧
    (∀ kv ∈ m'.plugins, kv.2.info.ApiVersion = ConnectorApiVersion) := by
  have hskip : (g ()).ApiVersion ≠ ConnectorApiVersion →
      (loadFile m file).m = m ∧ (loadFile m file).panicked = none := by
    intro hver
    unfold loadFile
    simp only [hopen, hinfo]
    split
    · exact ⟨rfl, rfl⟩
    · simp [hver]
  refine ⟨fun hver => ?_, fun hne => ?_, ?_⟩
  · obtain ⟨h1, h2⟩ := hskip hver
    exact ⟨h1, h2, loadLoop_skip m file rest h1 h2⟩
  · by_contra hver
    exact hne (hskip hver).1
  · exact reachable_invariant (fun kv => kv.2.info.ApiVersion = ConnectorApiVersion)
      (fun p g f1 f2 f3 f4 f5 hv => hv) m' hreach

/-- C1 at a concrete input: a module of version 2 exporting all six entry
points, processed after a valid module was loaded. -/
theorem version_mismatch_skipped_witness :
    (moduleFile "dll/b.so" (wrongVersionPlugin "dll/b.so" "com.b" "B")).opened
      = .ok (wrongVersionPlugin "dll/b.so" "com.b" "B") ∧
    (mkInfo "com.b" "B" 2).ApiVersion ≠ ConnectorApiVersion ∧
    (loadFile (LoadPlugins Manager.empty (.ok [moduleFile "dll/a.so"
        (goodPlugin "dll/a.so" "com.a" "A" 7 "x")])).m
      (moduleFile "dll/b.so" (wrongVersionPlugin "dll/b.so" "com.b" "B"))).m
      = (LoadPlugins Manager.empty (.ok [moduleFile "dll/a.so"
        (goodPlugin "dll/a.so" "com.a" "A" 7 "x")])).m ∧
    (∀ kv ∈ (LoadPlugins Manager.empty (.ok [moduleFile "dll/a.so"
        (goodPlugin "dll/a.so" "com.a" "A" 7 "x")])).m.plugins,
      kv.2.info.ApiVersion = ConnectorApiVersion) :=
  have h := version_mismatch_skipped
    (LoadPlugins Manager.empty (.ok [moduleFile "dll/a.so"
        (goodPlugin "dll/a.so" "com.a" "A" 7 "x")])).m
    (moduleFile "dll/b.so" (wrongVersionPlugin "dll/b.so" "com.b" "B"))
    (wrongVersionPlugin "dll/b.so" "com.b" "B") (fun _ => mkInfo "com.b" "B" 2) []
    (LoadPlugins Manager.empty (.ok [moduleFile "dll/a.so"
        (goodPlugin "dll/a.so" "com.a" "A" 7 "x")])).m
    rfl rfl (Reachable.load _ _ Reachable.empty)
  ⟨rfl, by decide, (h.1 (by decide)).1, h.2.2⟩

/-! ## C2: all-or-nothing binding -/

/-- C2. A candidate module in which one of the five entry points
`GetConfigFields`, `CreateSession`, `DestroySession`, `TestConnection`,
`FetchData` cannot be found leaves the registry as it was; and in every
registry reachable from the empty one by `LoadPlugins`, every entry has all
five function references bound. -/
theorem all_or_nothing (m : Manager) (file : DirEntry) (p : Plugin) (name : String)
    (m' : Manager)
    (hopen : file.opened = .ok p)
    (hname : name ∈ requiredEntryPoints)
    (hmiss : p.Lookup name = none)
    (hreach : Reachable m') :
    (loadFile m file).m = m ∧ ∀ kv ∈ m'.plugins, FullyBound kv.2 := by
  constructor
  · rcases loadFile_cases m file with h | ⟨q, g, f1, f2, f3, f4, f5, ho, _, _, e1, e2, e3, e4, e5, _, _, _⟩
    · exact h
    · rw [hopen] at ho
      cases ho
      simp only [requiredEntryPoints, List.mem_cons, List.mem_singleton, List.not_mem_nil,
        or_false] at hname
      rcases hname with h | h | h | h | h <;> subst h <;> simp_all
  · exact reachable_invariant (fun kv => FullyBound kv.2)
      (fun p g f1 f2 f3 f4 f5 _ => by simp [FullyBound, boundInstance]) m' hreach

/-- C2 at a concrete input: a module lacking `FetchData`, and the registry
after loading a directory that holds it next to a valid module. -/
theorem all_or_nothing_witness :
    (incompletePlugin "dll/c.so" "com.c" "C").Lookup "FetchData" = none ∧
    (loadFile Manager.empty (moduleFile "dll/c.so" (incompletePlugin "dll/c.so" "com.c" "C"))).m
      = Manager.empty ∧
    (∀ kv ∈ (LoadPlugins Manager.empty (.ok [moduleFile "dll/a.so"
        (goodPlugin "dll/a.so" "com.a" "A" 7 "x"),
        moduleFile "dll/c.so" (incompletePlugin "dll/c.so" "com.c" "C")])).m.plugins,
      FullyBound kv.2) :=
  have h := all_or_nothing Manager.empty
    (moduleFile "dll/c.so" (incompletePlugin "dll/c.so" "com.c" "C"))
    (incompletePlugin "dll/c.so" "com.c" "C") "FetchData"
    (LoadPlugins Manager.empty (.ok [moduleFile "dll/a.so"
        (goodPlugin "dll/a.so" "com.a" "A" 7 "x"),
        moduleFile "dll/c.so" (incompletePlugin "dll/c.so" "com.c" "C")])).m
    rfl (by decide) rfl (Reachable.load _ _ Reachable.empty)
  ⟨rfl, h.1, h.2⟩

/-! ## C3, C4: a mistyped entry point -/

/-- C3, evaluated on the directory `[a.so, b.so]` where `a.so` reports version
1 and exports `GetConfigFields` with the type `func() string`, and `b.so` is a
valid module: the single-value type assertion in `lookupAndAssign` panics, the
panic leaves `LoadPlugins`, and `b.so` is never opened. -/
theorem mistyped_entry_point_panics :
    (lookupAndAssign (mistypedPlugin "dll/a.so" "com.a" "A")
        (newInstance (mistypedPlugin "dll/a.so" "com.a" "A") (mkInfo "com.a" "A" 1)
          (fun _ => mkInfo "com.a" "A" 1))
        "GetConfigFields" .getConfigFields)
      = .error
          "interface conversion: plugin.Symbol is func() string, not func() []plugins.ConfigField" ∧
    (LoadPlugins Manager.empty (.ok [moduleFile "dll/a.so" (mistypedPlugin "dll/a.so" "com.a" "A"),
        moduleFile "dll/b.so" (goodPlugin "dll/b.so" "com.b" "B" 7 "x")])).outcome
      = .panicked
          "interface conversion: plugin.Symbol is func() string, not func() []plugins.ConfigField" ∧
    (LoadPlugins Manager.empty (.ok [moduleFile "dll/a.so" (mistypedPlugin "dll/a.so" "com.a" "A"),
        moduleFile "dll/b.so" (goodPlugin "dll/b.so" "com.b" "B" 7 "x")])).events
      = [.open "dll/a.so", .call "dll/a.so" .GetConnectorInfo .none] := by
  refine ⟨rfl, ?_, ?_⟩ <;> decide

/-- C4, evaluated on the directory `[a.so, b.so]` where `a.so` is a module of
version 1 whose `GetConfigFields` has the type `func() string` and `b.so` is a
valid module with the identifier `com.b`: directory enumeration succeeded, yet
`LoadPlugins` does not return `nil` (it panics) and the registry has no entry
under `com.b`; with `a.so` absent the same module is loaded. -/
theorem valid_module_lost_after_panic :
    (LoadPlugins Manager.empty (.ok [moduleFile "dll/a.so" (mistypedPlugin "dll/a.so" "com.a" "A"),
        moduleFile "dll/b.so" (goodPlugin "dll/b.so" "com.b" "B" 7 "x")])).outcome
      ≠ .returned none ∧
    (mapGet "com.b" (LoadPlugins Manager.empty (.ok [moduleFile "dll/a.so"
        (mistypedPlugin "dll/a.so" "com.a" "A"),
        moduleFile "dll/b.so" (goodPlugin "dll/b.so" "com.b" "B" 7 "x")])).m.plugins).isSome
      = false ∧
    (mapGet "com.b" (LoadPlugins Manager.empty (.ok [moduleFile "dll/b.so"
        (goodPlugin "dll/b.so" "com.b" "B" 7 "x")])).m.plugins).isSome = true := by
  refine ⟨?_, ?_, ?_⟩ <;> decide

/-! ## C5: GetAllPlugins after a load -/

theorem reportedInfo_of_valid (file : DirEntry) (h : validModule file = true) :
    ∃ i, reportedInfo file = some i := by
  obtain ⟨_, p, g, _, _, _, _, _, hp, hg, _⟩ := (validModule_iff file).mp h
  exact ⟨g (), by simp [reportedInfo, hp, hg]⟩

theorem validInfos_length (files : List DirEntry) :
    (validInfos files).length = (files.filter validModule).length := by
  unfold validInfos
  induction files with
  | nil => rfl
  | cons file rest ih =>
    cases hval : validModule file with
    | false => simpa [List.filter_cons, hval] using ih
    | true =>
      obtain ⟨i, hi⟩ := reportedInfo_of_valid file hval
      simpa [List.filter_cons, hval, hi] using ih

/-- C5 as stated fails: two valid modules (`a.so`, `b.so`) that both report the
identifier `com.a` are loaded into the empty registry without error, and
`GetAllPlugins` returns one descriptor, not two. -/
theorem colliding_ids_one_descriptor :
    ([moduleFile "dll/a.so" (goodPlugin "dll/a.so" "com.a" "A" 7 "x"),
      moduleFile "dll/b.so" (goodPlugin "dll/b.so" "com.a" "B" 8 "y")].filter validModule).length
      = 2 ∧
    (LoadPlugins Manager.empty (.ok [moduleFile "dll/a.so" (goodPlugin "dll/a.so" "com.a" "A" 7 "x"),
      moduleFile "dll/b.so" (goodPlugin "dll/b.so" "com.a" "B" 8 "y")])).outcome
      = .returned none ∧
    (GetAllPlugins (LoadPlugins Manager.empty (.ok [moduleFile "dll/a.so"
        (goodPlugin "dll/a.so" "com.a" "A" 7 "x"),
      moduleFile "dll/b.so" (goodPlugin "dll/b.so" "com.a" "B" 8 "y")])).m (fun l => l)).outcome
      = .returned [mkInfo "com.a" "B" 1] := by
  refine ⟨?_, ?_, ?_⟩ <;> decide

/-- C5, amended. After `LoadPlugins` has returned from loading, into the empty
registry, a directory whose valid modules report pairwise distinct identifiers,
`GetAllPlugins` returns (for every iteration order of the map) exactly as many
descriptors as there are valid modules, the descriptors are those the valid
modules report, so the multisets of (ID, Name) pairs agree, and `GetAllPlugins`
leaves the registry unchanged and calls no plugin. -/
theorem getAllPlugins_after_load (files : List DirEntry)
    (order : List (String × ConnectorPlugin) → List (String × ConnectorPlugin))
    (horder : ∀ l, (order l).Perm l)
    (hret : (LoadPlugins Manager.empty (.ok files)).outcome = .returned none)
    (hdistinct : ((validInfos files).map (fun i => i.ID)).Nodup) :
    ∃ infos : List ConnectorInfo,
      (GetAllPlugins (LoadPlugins Manager.empty (.ok files)).m order).outcome = .returned infos ∧
      infos.length = (files.filter validModule).length ∧
      infos.Perm (validInfos files) ∧
      Multiset.ofList (infos.map (fun i => (i.ID, i.Name))) =
        Multiset.ofList ((validInfos files).map (fun i => (i.ID, i.Name))) ∧
      (GetAllPlugins (LoadPlugins Manager.empty (.ok files)).m order).m =
        (LoadPlugins Manager.empty (.ok files)).m ∧
      (GetAllPlugins (LoadPlugins Manager.empty (.ok files)).m order).events = [] := by
  have hreg := loadLoop_infos files Manager.empty hret (by simpa [Manager.empty] using hdistinct)
  have hinfos : (loadLoop Manager.empty files).m.plugins.map (fun kv => kv.2.info) =
      validInfos files := by
    have := congrArg (List.map Prod.snd) hreg
    simpa [Manager.empty, Function.comp_def] using this
  have hperm : ((order (loadLoop Manager.empty files).m.plugins).map (fun kv => kv.2.info)).Perm
      (validInfos files) := by
    rw [← hinfos]
    exact (horder _).map _
  refine ⟨_, rfl, ?_, hperm, ?_, rfl, rfl⟩
  · rw [← validInfos_length]
    exact hperm.length_eq
  · exact Multiset.coe_eq_coe.mpr (hperm.map _)

/-- C5 amended, at a concrete input: two valid modules with the identifiers
`com.a` and `com.b` next to a module of the wrong version and a text file; the
map is visited in reverse insertion order. -/
theorem getAllPlugins_after_load_witness :
    (LoadPlugins Manager.empty (.ok [moduleFile "dll/a.so" (goodPlugin "dll/a.so" "com.a" "A" 7 "x"),
      moduleFile "dll/w.so" (wrongVersionPlugin "dll/w.so" "com.w" "W"),
      ⟨"dll/readme.txt", .regular, .error "not a plugin"⟩,
      moduleFile "dll/b.so" (goodPlugin "dll/b.so" "com.b" "B" 8 "y")])).outcome
      = .returned none ∧
    ∃ infos : List ConnectorInfo,
      (GetAllPlugins (LoadPlugins Manager.empty (.ok [moduleFile "dll/a.so"
          (goodPlugin "dll/a.so" "com.a" "A" 7 "x"),
        moduleFile "dll/w.so" (wrongVersionPlugin "dll/w.so" "com.w" "W"),
        ⟨"dll/readme.txt", .regular, .error "not a plugin"⟩,
        moduleFile "dll/b.so" (goodPlugin "dll/b.so" "com.b" "B" 8 "y")])).m List.reverse).outcome
        = .returned infos ∧
      infos.length = 2 ∧
      infos.Perm [mkInfo "com.a" "A" 1, mkInfo "com.b" "B" 1] :=
  have h := getAllPlugins_after_load
    [moduleFile "dll/a.so" (goodPlugin "dll/a.so" "com.a" "A" 7 "x"),
      moduleFile "dll/w.so" (wrongVersionPlugin "dll/w.so" "com.w" "W"),
      ⟨"dll/readme.txt", .regular, .error "not a plugin"⟩,
      moduleFile "dll/b.so" (goodPlugin "dll/b.so" "com.b" "B" 8 "y")]
    List.reverse (fun l => List.reverse_perm l) (by decide) (by decide)
  match h with
  | ⟨infos, h1, h2, h3, _⟩ => ⟨by decide, infos, h1, h2, h3⟩

/-! ## C6, C7, C8: session operations -/

/-- C6. `CreateSession` with an identifier that is not a key of the registry
returns a nil session and a non-nil error for every config (and every
`json.Marshal`), records no plugin call, and leaves the registry unchanged. -/
theorem createSession_unknown_plugin {C : Type} (marshal : C → Except String String)
    (m : Manager) (pluginID : String) (config : C)
    (hkey : pluginID ∉ m.plugins.map Prod.fst) :
    (CreateSession marshal m pluginID config).outcome =
      .returned (none, some ("插件 " ++ pluginID ++ " 不存在")) ∧
    (CreateSession marshal m pluginID config).events = [] ∧
    (CreateSession marshal m pluginID config).m = m := by
  simp [CreateSession, mapGet_none_of_not_mem pluginID m.plugins hkey]

/-- C6 at a concrete input: the plugin `com.a` is loaded, the session is
requested for `com.zzz`. -/
theorem createSession_unknown_plugin_witness :
    "com.zzz" ∉ (LoadPlugins Manager.empty (.ok [moduleFile "dll/a.so"
        (goodPlugin "dll/a.so" "com.a" "A" 7 "x")])).m.plugins.map Prod.fst ∧
    (CreateSession marshalStrings (LoadPlugins Manager.empty (.ok [moduleFile "dll/a.so"
        (goodPlugin "dll/a.so" "com.a" "A" 7 "x")])).m "com.zzz" [("path", "x")]).outcome =
      .returned (none, some ("插件 " ++ "com.zzz" ++ " 不存在")) ∧
    (CreateSession marshalStrings (LoadPlugins Manager.empty (.ok [moduleFile "dll/a.so"
        (goodPlugin "dll/a.so" "com.a" "A" 7 "x")])).m "com.zzz" [("path", "x")]).events = [] :=
  have h := createSession_unknown_plugin marshalStrings
    (LoadPlugins Manager.empty (.ok [moduleFile "dll/a.so"
        (goodPlugin "dll/a.so" "com.a" "A" 7 "x")])).m "com.zzz" [("path", "x")] (by decide)
  ⟨by decide, h.1, h.2.1⟩

/-- C7. `DestroySession(nil)`, `TestConnection(nil)` and `FetchData(nil)` return
a non-nil error (with `false` resp. the empty string), record no plugin call
and leave the registry unchanged, for every registry. -/
theorem nil_session_rejected (m : Manager) :
    DestroySession m none = ⟨.returned (some "session 不能为空"), m, []⟩ ∧
    TestConnection m none = ⟨.returned (false, some "session 不能为空"), m, []⟩ ∧
    FetchData m none = ⟨.returned ("", some "session 不能为空"), m, []⟩ :=
  ⟨rfl, rfl, rfl⟩

/-- C8. For a registry holding the plugin `p` under `id`, with its four
session functions bound, and a config that serializes to `s`: `CreateSession`
returns, with nil error, the session with `PluginID = id` and
`Handle = p.createSession(s)`; for that session `TestConnection` returns
`(p.testConnection(Handle), nil)`, `FetchData` returns
`(p.fetchData(Handle), nil)`, and `DestroySession` returns nil; each operation
makes exactly one call, to the module of `p`, with `s` resp. the handle as
issued, and leaves the registry unchanged. -/
theorem session_round_trip {C : Type} (marshal : C → Except String String) (m : Manager)
    (id : String) (p : ConnectorPlugin) (config : C) (s : String)
    (fc : String → SessionHandle) (fd : SessionHandle → Unit) (ft : SessionHandle → Bool)
    (ff : SessionHandle → String)
    (hp : mapGet id m.plugins = some p)
    (hs : marshal config = .ok s)
    (hc : p.createSession = some fc)
    (hd : p.destroySession = some fd)
    (ht : p.testConnection = some ft)
    (hf : p.fetchData = some ff) :
    CreateSession marshal m id config =
      ⟨.returned (some ⟨id, fc s⟩, none), m,
        [.call p.plugin.pluginpath .CreateSession (.str s)]⟩ ∧
    TestConnection m (some ⟨id, fc s⟩) =
      ⟨.returned (ft (fc s), none), m,
        [.call p.plugin.pluginpath .TestConnection (.handle (fc s))]⟩ ∧
    FetchData m (some ⟨id, fc s⟩) =
      ⟨.returned (ff (fc s), none), m,
        [.call p.plugin.pluginpath .FetchData (.handle (fc s))]⟩ ∧
    DestroySession m (some ⟨id, fc s⟩) =
      ⟨.returned none, m,
        [.call p.plugin.pluginpath .DestroySession (.handle (fc s))]⟩ := by
  simp [CreateSession, TestConnection, FetchData, DestroySession, hp, hs, hc, hd, ht, hf]

/-- C8 at the fixture of the specification: config `\x7b"path": "x"\x7d`,
test-connection `true`, fetch-data `\x7b"rows":[]\x7d`. -/
theorem session_round_trip_witness :
    marshalStrings [("path", "x")] = .ok "\x7b\"path\":\"x\"\x7d" ∧
    CreateSession marshalStrings fixtureManager "com.fixture" [("path", "x")] =
      ⟨.returned (some ⟨"com.fixture", 7⟩, none), fixtureManager,
        [.call "dll/fixture.so" .CreateSession (.str "\x7b\"path\":\"x\"\x7d")]⟩ ∧
    TestConnection fixtureManager (some ⟨"com.fixture", 7⟩) =
      ⟨.returned (true, none), fixtureManager,
        [.call "dll/fixture.so" .TestConnection (.handle 7)]⟩ ∧
    FetchData fixtureManager (some ⟨"com.fixture", 7⟩) =
      ⟨.returned ("\x7b\"rows\":[]\x7d", none), fixtureManager,
        [.call "dll/fixture.so" .FetchData (.handle 7)]⟩ ∧
    DestroySession fixtureManager (some ⟨"com.fixture", 7⟩) =
      ⟨.returned none, fixtureManager,
        [.call "dll/fixture.so" .DestroySession (.handle 7)]⟩ :=
  have h := session_round_trip marshalStrings fixtureManager "com.fixture"
    (boundInstance (newInstance fixturePlugin (mkInfo "com.fixture" "Fixture" 1)
        (fun _ => mkInfo "com.fixture" "Fixture" 1))
      (fun _ => [⟨"path", "Path", "text", "", ""⟩])
      (fun s => if s = "\x7b\"path\":\"x\"\x7d" then 7 else 0)
      (fun _ => ())
      (fun h => decide (h = 7))
      (fun h => if h = 7 then "\x7b\"rows\":[]\x7d" else ""))
    [("path", "x")] "\x7b\"path\":\"x\"\x7d"
    (fun s => if s = "\x7b\"path\":\"x\"\x7d" then 7 else 0)
    (fun _ => ())
    (fun h => decide (h = 7))
    (fun h => if h = 7 then "\x7b\"rows\":[]\x7d" else "")
    rfl rfl rfl rfl rfl rfl
  ⟨rfl, h.1, h.2.1, h.2.2.1, h.2.2.2⟩

/-! ## C9: identifier collision -/

/-- C9. `LoadPlugins` processes the valid module `a` and later the valid module
`b` (the loop reaches `b`), both reporting the same identifier, and no valid
module after `b` reports it. Then, whatever the entries after `b` are and even
if one of them makes the run panic: no error is reported (the run never
returns an error, and it returns nil when no iteration after `b` panics);
after `a` was processed the registry held the descriptor of `a` under the
identifier; afterwards the registry holds exactly one entry for it, the record
bound to the functions of `b`; and `GetPluginConfigFields`, `CreateSession` and
the session operations for that identifier call the functions of `b`. -/
theorem later_module_overwrites {C : Type} (marshal : C → Except String String)
    (m : Manager) (pre mid post : List DirEntry) (a b : DirEntry)
    (ia : ConnectorInfo) (pb : Plugin) (g : Unit → ConnectorInfo)
    (f1 : Unit → List ConfigField) (f2 : String → SessionHandle) (f3 : SessionHandle → Unit)
    (f4 : SessionHandle → Bool) (f5 : SessionHandle → String)
    (hkeys : (m.plugins.map Prod.fst).Nodup)
    (hreach : (loadLoop m (pre ++ a :: mid)).outcome = .returned none)
    (ha : validModule a = true)
    (hia : reportedInfo a = some ia)
    (hsame : ia.ID = (g ()).ID)
    (hext : moduleExt b.path)
    (hopen : b.opened = .ok pb)
    (hinfo : pb.Lookup "GetConnectorInfo" = some (.funcInfo g))
    (hver : (g ()).ApiVersion = ConnectorApiVersion)
    (e1 : pb.Lookup "GetConfigFields" = some (.funcConfigFields f1))
    (e2 : pb.Lookup "CreateSession" = some (.funcCreate f2))
    (e3 : pb.Lookup "DestroySession" = some (.funcDestroy f3))
    (e4 : pb.Lookup "TestConnection" = some (.funcTest f4))
    (e5 : pb.Lookup "FetchData" = some (.funcFetch f5))
    (hlast : ∀ f ∈ post, validModule f = true → ∀ i, reportedInfo f = some i → i.ID ≠ (g ()).ID) :
    (∀ err, (LoadPlugins m (.ok (pre ++ a :: (mid ++ b :: post)))).outcome ≠ .returned (some err)) ∧
    ((∀ f ∈ post, ∀ m' : Manager, (loadFile m' f).panicked = none) →
      (LoadPlugins m (.ok (pre ++ a :: (mid ++ b :: post)))).outcome = .returned none) ∧
    (∃ cpa, mapGet (g ()).ID (loadLoop m (pre ++ [a])).m.plugins = some cpa ∧ cpa.info = ia) ∧
    ((LoadPlugins m (.ok (pre ++ a :: (mid ++ b :: post)))).m.plugins.map Prod.fst).count
      (g ()).ID = 1 ∧
    mapGet (g ()).ID (LoadPlugins m (.ok (pre ++ a :: (mid ++ b :: post)))).m.plugins =
      some (boundInstance (newInstance pb (g ()) g) f1 f2 f3 f4 f5) ∧
    GetPluginConfigFields (LoadPlugins m (.ok (pre ++ a :: (mid ++ b :: post)))).m (g ()).ID =
      ⟨.returned (some (f1 ()), none), (LoadPlugins m (.ok (pre ++ a :: (mid ++ b :: post)))).m,
        [.call pb.pluginpath .GetConfigFields .none]⟩ ∧
    (∀ (config : C) (s : String), marshal config = .ok s →
      CreateSession marshal
          (LoadPlugins m (.ok (pre ++ a :: (mid ++ b :: post)))).m (g ()).ID config =
        ⟨.returned (some ⟨(g ()).ID, f2 s⟩, none),
          (LoadPlugins m (.ok (pre ++ a :: (mid ++ b :: post)))).m,
          [.call pb.pluginpath .CreateSession (.str s)]⟩) ∧
    (∀ h : SessionHandle,
      TestConnection (LoadPlugins m (.ok (pre ++ a :: (mid ++ b :: post)))).m
          (some ⟨(g ()).ID, h⟩) =
        ⟨.returned (f4 h, none), (LoadPlugins m (.ok (pre ++ a :: (mid ++ b :: post)))).m,
          [.call pb.pluginpath .TestConnection (.handle h)]⟩ ∧
      FetchData (LoadPlugins m (.ok (pre ++ a :: (mid ++ b :: post)))).m
          (some ⟨(g ()).ID, h⟩) =
        ⟨.returned (f5 h, none), (LoadPlugins m (.ok (pre ++ a :: (mid ++ b :: post)))).m,
          [.call pb.pluginpath .FetchData (.handle h)]⟩ ∧
      DestroySession (LoadPlugins m (.ok (pre ++ a :: (mid ++ b :: post)))).m
          (some ⟨(g ()).ID, h⟩) =
        ⟨.returned none, (LoadPlugins m (.ok (pre ++ a :: (mid ++ b :: post)))).m,
          [.call pb.pluginpath .DestroySession (.handle h)]⟩) := by
  -- the state after `a`
  have hsplit1 : pre ++ a :: mid = (pre ++ [a]) ++ mid := by simp
  obtain ⟨hretA, _, _⟩ := loadLoop_append_returned (pre ++ [a]) mid m (hsplit1 ▸ hreach)
  obtain ⟨hretP, hretP', hmP⟩ := loadLoop_append_returned pre [a] m hretA
  obtain ⟨_, pa, ga, a1, a2, a3, a4, a5, hpa, hga, hva, ea1, ea2, ea3, ea4, ea5⟩ :=
    (validModule_iff a).mp ha
  have hextA : moduleExt a.path := ((validModule_iff a).mp ha).1
  have hia' : ia = ga () := by
    have : reportedInfo a = some (ga ()) := by simp [reportedInfo, hpa, hga]
    rw [hia] at this
    exact Option.some.inj this
  have hstateA : mapGet (g ()).ID (loadLoop m (pre ++ [a])).m.plugins =
      some (boundInstance (newInstance pa (ga ()) ga) a1 a2 a3 a4 a5) := by
    rw [hmP]
    obtain ⟨_, _, hm1⟩ := loadLoop_cons_returned (loadLoop m pre).m a [] hretP'
    rw [hm1]
    obtain ⟨hstep, _⟩ := loadFile_of_lookups (loadLoop m pre).m a pa ga a1 a2 a3 a4 a5 hextA hpa
      hga hva ea1 ea2 ea3 ea4 ea5
    simp only [loadLoop]
    rw [hstep, ← hsame, hia']
    exact mapGet_mapSet_self _ _ _
  -- the state after `b`, and the rest of the run
  have hsplit2 : pre ++ a :: (mid ++ b :: post) = (pre ++ a :: mid) ++ (b :: post) := by simp
  obtain ⟨hstepB, hpB⟩ := loadFile_of_lookups (loadLoop m (pre ++ a :: mid)).m b pb g f1 f2 f3 f4
    f5 hext hopen hinfo hver e1 e2 e3 e4 e5
  have hrun : loadLoop m (pre ++ a :: (mid ++ b :: post)) =
      ⟨(loadLoop (loadFile (loadLoop m (pre ++ a :: mid)).m b).m post).outcome,
        (loadLoop (loadFile (loadLoop m (pre ++ a :: mid)).m b).m post).m,
        (loadLoop m (pre ++ a :: mid)).events ++
          ((loadFile (loadLoop m (pre ++ a :: mid)).m b).events ++
            (loadLoop (loadFile (loadLoop m (pre ++ a :: mid)).m b).m post).events)⟩ := by
    rw [hsplit2, loadLoop_append_of_returned (pre ++ a :: mid) (b :: post) m hreach,
      loadLoop_cons_of_no_panic _ b post hpB]
  have hfinal : mapGet (g ()).ID (LoadPlugins m (.ok (pre ++ a :: (mid ++ b :: post)))).m.plugins =
      some (boundInstance (newInstance pb (g ()) g) f1 f2 f3 f4 f5) := by
    simp only [LoadPlugins]
    rw [hrun]
    simp only []
    rw [loadLoop_mapGet_kept (g ()).ID post hlast, hstepB]
    exact mapGet_mapSet_self _ _ _
  have hnodup : ((LoadPlugins m (.ok (pre ++ a :: (mid ++ b :: post)))).m.plugins.map
      Prod.fst).Nodup := loadLoop_nodup_keys _ m hkeys
  refine ⟨fun err herr => ?_, fun hpost => ?_,
    ⟨_, hstateA, by simp [boundInstance, newInstance, hia']⟩, ?_, hfinal, ?_, ?_, ?_⟩
  · simp only [LoadPlugins] at herr
    rcases loadLoop_outcome (pre ++ a :: (mid ++ b :: post)) m with h | ⟨msg, h⟩
    · rw [h] at herr
      cases herr
    · rw [h] at herr
      cases herr
  · simp only [LoadPlugins]
    rw [hrun]
    exact loadLoop_returned_of_steps post hpost _
  · exact List.count_eq_one_of_mem hnodup (mem_keys_of_mapGet _ _ _ hfinal)
  · simp [GetPluginConfigFields, hfinal, boundInstance, newInstance]
  · intro config s hs
    simp [CreateSession, hfinal, hs, boundInstance, newInstance]
  · intro h
    simp [TestConnection, FetchData, DestroySession, hfinal, boundInstance, newInstance]

/-- C9 at a concrete input: `a.so` and `b.so` both report `com.a`; between them
lies a module of the wrong version, after them a text file and a module with a
mistyped entry point, on which the run panics. The registry holds one entry
for `com.a`, and the session is created by `b.so` (handle 8, payload `y`), not
by `a.so` (handle 7, payload `x`). -/
theorem later_module_overwrites_witness :
    validModule (moduleFile "dll/a.so" (goodPlugin "dll/a.so" "com.a" "A" 7 "x")) = true ∧
    validModule (moduleFile "dll/b.so" (goodPlugin "dll/b.so" "com.a" "B" 8 "y")) = true ∧
    (loadLoop Manager.empty [moduleFile "dll/a.so" (goodPlugin "dll/a.so" "com.a" "A" 7 "x"),
      moduleFile "dll/w.so" (wrongVersionPlugin "dll/w.so" "com.w" "W")]).outcome
      = .returned none ∧
    (∀ err, (LoadPlugins Manager.empty (.ok [moduleFile "dll/a.so" (goodPlugin "dll/a.so" "com.a" "A" 7 "x"),
      moduleFile "dll/w.so" (wrongVersionPlugin "dll/w.so" "com.w" "W"),
      moduleFile "dll/b.so" (goodPlugin "dll/b.so" "com.a" "B" 8 "y"),
      ⟨"dll/readme.txt", .regular, .error "not a plugin"⟩,
      moduleFile "dll/c.so" (mistypedPlugin "dll/c.so" "com.c" "C")])).outcome ≠ .returned (some err)) ∧
    ((LoadPlugins Manager.empty (.ok [moduleFile "dll/a.so" (goodPlugin "dll/a.so" "com.a" "A" 7 "x"),
      moduleFile "dll/w.so" (wrongVersionPlugin "dll/w.so" "com.w" "W"),
      moduleFile "dll/b.so" (goodPlugin "dll/b.so" "com.a" "B" 8 "y"),
      ⟨"dll/readme.txt", .regular, .error "not a plugin"⟩,
      moduleFile "dll/c.so" (mistypedPlugin "dll/c.so" "com.c" "C")])).m.plugins.map Prod.fst).count "com.a" = 1 ∧
    CreateSession marshalStrings (LoadPlugins Manager.empty (.ok [moduleFile "dll/a.so" (goodPlugin "dll/a.so" "com.a" "A" 7 "x"),
      moduleFile "dll/w.so" (wrongVersionPlugin "dll/w.so" "com.w" "W"),
      moduleFile "dll/b.so" (goodPlugin "dll/b.so" "com.a" "B" 8 "y"),
      ⟨"dll/readme.txt", .regular, .error "not a plugin"⟩,
      moduleFile "dll/c.so" (mistypedPlugin "dll/c.so" "com.c" "C")])).m "com.a" [("path", "x")] =
      ⟨.returned (some ⟨"com.a", 8⟩, none), (LoadPlugins Manager.empty (.ok [moduleFile "dll/a.so" (goodPlugin "dll/a.so" "com.a" "A" 7 "x"),
      moduleFile "dll/w.so" (wrongVersionPlugin "dll/w.so" "com.w" "W"),
      moduleFile "dll/b.so" (goodPlugin "dll/b.so" "com.a" "B" 8 "y"),
      ⟨"dll/readme.txt", .regular, .error "not a plugin"⟩,
      moduleFile "dll/c.so" (mistypedPlugin "dll/c.so" "com.c" "C")])).m,
        [.call "dll/b.so" .CreateSession (.str "\x7b\"path\":\"x\"\x7d")]⟩ ∧
    FetchData (LoadPlugins Manager.empty (.ok [moduleFile "dll/a.so" (goodPlugin "dll/a.so" "com.a" "A" 7 "x"),
      moduleFile "dll/w.so" (wrongVersionPlugin "dll/w.so" "com.w" "W"),
      moduleFile "dll/b.so" (goodPlugin "dll/b.so" "com.a" "B" 8 "y"),
      ⟨"dll/readme.txt", .regular, .error "not a plugin"⟩,
      moduleFile "dll/c.so" (mistypedPlugin "dll/c.so" "com.c" "C")])).m (some ⟨"com.a", 8⟩) =
      ⟨.returned ("y", none), (LoadPlugins Manager.empty (.ok [moduleFile "dll/a.so" (goodPlugin "dll/a.so" "com.a" "A" 7 "x"),
      moduleFile "dll/w.so" (wrongVersionPlugin "dll/w.so" "com.w" "W"),
      moduleFile "dll/b.so" (goodPlugin "dll/b.so" "com.a" "B" 8 "y"),
      ⟨"dll/readme.txt", .regular, .error "not a plugin"⟩,
      moduleFile "dll/c.so" (mistypedPlugin "dll/c.so" "com.c" "C")])).m, [.call "dll/b.so" .FetchData (.handle 8)]⟩ :=
  have h := later_module_overwrites marshalStrings Manager.empty []
    [moduleFile "dll/w.so" (wrongVersionPlugin "dll/w.so" "com.w" "W")]
    [⟨"dll/readme.txt", .regular, .error "not a plugin"⟩,
      moduleFile "dll/c.so" (mistypedPlugin "dll/c.so" "com.c" "C")]
    (moduleFile "dll/a.so" (goodPlugin "dll/a.so" "com.a" "A" 7 "x"))
    (moduleFile "dll/b.so" (goodPlugin "dll/b.so" "com.a" "B" 8 "y"))
    (mkInfo "com.a" "A" 1) (goodPlugin "dll/b.so" "com.a" "B" 8 "y")
    (fun _ => mkInfo "com.a" "B" 1) (fun _ => [⟨"path", "Path", "text", "", ""⟩])
    (fun _ => 8) (fun _ => ()) (fun _ => true) (fun _ => "y")
    (by decide) (by decide) (by decide) rfl rfl (by decide) rfl rfl rfl rfl rfl rfl rfl rfl
    (fun f hf hv => by
      simp only [List.mem_cons, List.mem_singleton, List.not_mem_nil, or_false] at hf
      rcases hf with hf | hf
      · subst hf
        exact absurd hv (by decide)
      · subst hf
        exact absurd hv (by decide))
  ⟨by decide, by decide, by decide, h.1, h.2.2.2.1, h.2.2.2.2.2.2.1 [("path", "x")] _ rfl,
    (h.2.2.2.2.2.2.2 8).2.1⟩

/-! ## C10: extension filter -/

theorem openedPaths_append (xs ys : List Event) :
    openedPaths (xs ++ ys) = openedPaths xs ++ openedPaths ys := by
  induction xs with
  | nil => rfl
  | cons e rest ih => cases e <;> simp [openedPaths, ih]

/-- One iteration opens the entry exactly when its extension is a module
extension, and opens nothing else. -/
theorem openedPaths_loadFile (m : Manager) (file : DirEntry) :
    openedPaths (loadFile m file).events = if moduleExt file.path then [file.path] else [] := by
  by_cases hext : moduleExt file.path
  · have hne : ¬ (Ext file.path ≠ ".dll" ∧ Ext file.path ≠ ".so" ∧ Ext file.path ≠ ".dylib") := by
      unfold moduleExt at hext
      intro hc
      rcases hext with h | h | h
      · exact hc.1 h
      · exact hc.2.1 h
      · exact hc.2.2 h
    rw [if_pos hext]
    unfold loadFile
    simp only [if_neg hne]
    split
    · rfl
    · split
      · rfl
      · split
        · rfl
        · split <;> rfl
      · rfl
  · have hpos : Ext file.path ≠ ".dll" ∧ Ext file.path ≠ ".so" ∧ Ext file.path ≠ ".dylib" := by
      unfold moduleExt at hext
      simpa [not_or] using hext
    rw [if_neg hext]
    unfold loadFile
    simp only [if_pos hpos]
    rfl

/-- An entry without a module extension is skipped by the loop body untouched. -/
theorem loadFile_of_other_ext (m : Manager) (file : DirEntry) (hext : ¬ moduleExt file.path) :
    loadFile m file = ⟨m, [], none⟩ := by
  have hpos : Ext file.path ≠ ".dll" ∧ Ext file.path ≠ ".so" ∧ Ext file.path ≠ ".dylib" := by
    unfold moduleExt at hext
    simpa [not_or] using hext
  unfold loadFile
  simp only [if_pos hpos]

/-- The paths opened by the loop are an initial part of the entries with a module
extension, and all of them when the loop returns. -/
theorem openedPaths_loadLoop (files : List DirEntry) :
    ∀ m : Manager,
      openedPaths (loadLoop m files).events <+:
        (files.filter (fun f => decide (moduleExt f.path))).map (fun f => f.path) ∧
      ((loadLoop m files).outcome = .returned none →
        openedPaths (loadLoop m files).events =
          (files.filter (fun f => decide (moduleExt f.path))).map (fun f => f.path)) := by
  induction files with
  | nil => intro m; simp [loadLoop, openedPaths]
  | cons file rest ih =>
    intro m
    have hstep := openedPaths_loadFile m file
    obtain ⟨ih1, ih2⟩ := ih (loadFile m file).m
    cases hp : (loadFile m file).panicked with
    | some e =>
      simp only [loadLoop, hp, hstep]
      refine ⟨?_, fun h => by cases h⟩
      by_cases hext : moduleExt file.path
      · simp [List.filter_cons, hext]
      · simp [List.filter_cons, hext]
    | none =>
      simp only [loadLoop, hp, openedPaths_append, hstep]
      by_cases hext : moduleExt file.path
      · simp only [List.filter_cons, hext, decide_True, if_true, List.map_cons]
        refine ⟨?_, fun h => ?_⟩
        · simpa using ih1
        · simpa using ih2 h
      · simp only [List.filter_cons, hext, decide_False, if_false, List.nil_append]
        exact ⟨ih1, ih2⟩

theorem mem_openedPaths (path : String) (evs : List Event) :
    Event.open path ∈ evs ↔ path ∈ openedPaths evs := by
  induction evs with
  | nil => simp [openedPaths]
  | cons e rest ih => cases e <;> simp [openedPaths, ih]

/-- The events of an iteration are among the events of the loop that starts
with it. -/
theorem loadFile_events_subset (m : Manager) (file : DirEntry) (rest : List DirEntry)
    (e : Event) (he : e ∈ (loadFile m file).events) : e ∈ (loadLoop m (file :: rest)).events := by
  cases hp : (loadFile m file).panicked with
  | some msg => simpa [loadLoop, hp] using he
  | none =>
    rw [loadLoop_cons_of_no_panic m file rest hp]
    exact List.mem_append_left _ he

/-- An entry the loop reaches is opened exactly when it has a module extension. -/
theorem reached_entry_opened_iff (m : Manager) (pre post : List DirEntry) (file : DirEntry)
    (hreach : (loadLoop m pre).outcome = .returned none) :
    Event.open file.path ∈ (loadLoop m (pre ++ file :: post)).events ↔ moduleExt file.path := by
  constructor
  · intro h
    have hpre := (openedPaths_loadLoop (pre ++ file :: post) m).1
    have hmem := hpre.subset ((mem_openedPaths _ _).mp h)
    obtain ⟨f, hf, hpath⟩ := List.mem_map.mp hmem
    have hfext : moduleExt f.path := by
      simpa using (List.mem_filter.mp hf).2
    unfold moduleExt at hfext ⊢
    rw [← hpath]
    exact hfext
  · intro hext
    rw [loadLoop_append_of_returned pre (file :: post) m hreach]
    apply List.mem_append_right
    apply loadFile_events_subset
    rw [mem_openedPaths, openedPaths_loadFile, if_pos hext]
    exact List.mem_singleton_self _

/-- C10 as stated fails: a subdirectory named `sub.so` under the plugin
directory is passed to `plugin.Open`. -/
theorem subdirectory_with_module_ext_opened :
    (subdirectory "dll/sub.so").kind = .directory ∧
    (LoadPlugins Manager.empty (.ok [subdirectory "dll/sub.so"])).events
      = [.open "dll/sub.so"] := by
  refine ⟨rfl, ?_⟩
  decide

/-- C10, amended. For every entry the loop of `LoadPlugins` reaches (every
enumerated entry when no earlier iteration panics), regular file or
subdirectory alike: `plugin.Open` is attempted on it exactly when
`filepath.Ext` of its path is `.dll`, `.so` or `.dylib`; an entry with any
other extension is ignored, that is, it is not opened, the registry stays as it
was, nothing panics and the run goes on as if the entry were absent. Over a
whole run the opened paths are an initial part of the entries with a module
extension, all of them when the run returns; and a run whose enumeration
succeeded never returns an error. -/
theorem extension_filter (m : Manager) (files rest : List DirEntry) (file : DirEntry) :
    (¬ moduleExt file.path →
      loadFile m file = ⟨m, [], none⟩ ∧ loadLoop m (file :: rest) = loadLoop m rest) ∧
    (moduleExt file.path → openedPaths (loadFile m file).events = [file.path]) ∧
    openedPaths (LoadPlugins m (.ok files)).events <+:
      (files.filter (fun f => decide (moduleExt f.path))).map (fun f => f.path) ∧
    ((LoadPlugins m (.ok files)).outcome = .returned none →
      openedPaths (LoadPlugins m (.ok files)).events =
        (files.filter (fun f => decide (moduleExt f.path))).map (fun f => f.path)) ∧
    (∀ err, (LoadPlugins m (.ok files)).outcome ≠ .returned (some err)) ∧
    (∀ pre post : List DirEntry, files = pre ++ file :: post →
      (loadLoop m pre).outcome = .returned none →
      (Event.open file.path ∈ (LoadPlugins m (.ok files)).events ↔ moduleExt file.path)) := by
  refine ⟨fun hext => ?_, fun hext => ?_, (openedPaths_loadLoop files m).1,
    (openedPaths_loadLoop files m).2, fun err herr => ?_, fun pre post hfiles hreach => ?_⟩
  · have h := loadFile_of_other_ext m file hext
    refine ⟨h, ?_⟩
    simp [loadLoop, h]
  · rw [openedPaths_loadFile, if_pos hext]
  · rcases loadLoop_outcome files m with h | ⟨msg, h⟩
    · simp only [LoadPlugins] at herr
      rw [h] at herr
      cases herr
    · simp only [LoadPlugins] at herr
      rw [h] at herr
      cases herr
  · subst hfiles
    exact reached_entry_opened_iff m pre post file hreach

/-- C10 amended, at a concrete input: a text file, a subdirectory `docs` and a
valid module; only the module is opened, and the text file, reached as the
first entry, is not. -/
theorem extension_filter_witness :
    ¬ moduleExt "dll/readme.txt" ∧
    loadFile Manager.empty ⟨"dll/readme.txt", .regular, .error "not a plugin"⟩
      = ⟨Manager.empty, [], none⟩ ∧
    moduleExt "dll/a.so" ∧
    openedPaths (LoadPlugins Manager.empty (.ok [⟨"dll/readme.txt", .regular, .error "not a plugin"⟩,
      subdirectory "dll/docs",
      moduleFile "dll/a.so" (goodPlugin "dll/a.so" "com.a" "A" 7 "x")])).events = ["dll/a.so"] ∧
    (Event.open "dll/readme.txt" ∈
      (LoadPlugins Manager.empty (.ok [⟨"dll/readme.txt", .regular, .error "not a plugin"⟩,
        subdirectory "dll/docs",
        moduleFile "dll/a.so" (goodPlugin "dll/a.so" "com.a" "A" 7 "x")])).events ↔
      moduleExt "dll/readme.txt") :=
  have h := extension_filter Manager.empty
    [⟨"dll/readme.txt", .regular, .error "not a plugin"⟩, subdirectory "dll/docs",
      moduleFile "dll/a.so" (goodPlugin "dll/a.so" "com.a" "A" 7 "x")] []
    ⟨"dll/readme.txt", .regular, .error "not a plugin"⟩
  ⟨by decide, (h.1 (by decide)).1, by decide, h.2.2.2.1 (by decide),
    h.2.2.2.2.2 [] [subdirectory "dll/docs",
      moduleFile "dll/a.so" (goodPlugin "dll/a.so" "com.a" "A" 7 "x")] rfl rfl⟩

end Plugins
